import Mathlib

/-!
Verification development for the databinder repository.

Shallow embedding of the resilient fetch-orchestration pipeline:
the retry/backoff engine (`src/utils/retryUtils.ts`), the error taxonomy and
classifier predicates (`src/core/errors.ts`), the sanitization utilities
(`src/utils/sanitize.ts`), the REST request builder / authenticator / fetch
executor (`src/datasources/implementations/RestApiDatasource.ts`, latest
variant with sanitization), and the batch iterator (`src/core/DataBinder.ts`).

JavaScript semantics are made explicit: falsy-or (`x || d`) becomes `jsOr*`
helpers, absent object properties become `Option`, JS numbers in the delay
computation become `ℚ`, `Math.random()` becomes an explicit argument in
`[0,1)`, and the per-attempt outcome of the platform `fetch` becomes an
explicit environment `Nat → FetchOutcome`.
-/

/-- JS `v || d` for an optional number: `undefined` and `0` are falsy. -/
def jsOrNat (v : Option Nat) (d : Nat) : Nat :=
  match v with
  | some n => if n = 0 then d else n
  | none => d

/-- JS `v || d` for an optional rational (a JS number): `undefined` and `0` are falsy. -/
def jsOrQ (v : Option ℚ) (d : ℚ) : ℚ :=
  match v with
  | some q => if q = 0 then d else q
  | none => d

/-- JS truthiness of an optional string: `undefined` and the empty string are falsy. -/
def jsTruthyS (v : Option String) : Bool :=
  match v with
  | some s => s ≠ ""
  | none => false

/-- JS `a || b` on optional strings. -/
def jsOrS (a b : Option String) : Option String :=
  if jsTruthyS a then a else b

/-- JS `a || b` where `a` is an optional string and `b` a plain string. -/
def jsOrStr (a : Option String) (b : String) : String :=
  match a with
  | some s => if s = "" then b else s
  | none => b

/-- JS `a || b || c` on optional integers with `0` falsy (used by `isServerError`). -/
def jsOrInt (a b : Option Int) : Option Int :=
  match a with
  | some v => if v = 0 then b else some v
  | none => b

/-- First component of an association list lookup (JS object property access). -/
def lookupStr (l : List (String × String)) (k : String) : Option String :=
  match l with
  | [] => none
  | p :: rest => if p.1 = k then some p.2 else lookupStr rest k

/-- JS object property assignment `m[k] = v`: overwrite in place or append. -/
def setAssoc (l : List (String × String)) (k v : String) : List (String × String) :=
  if l.any (fun p => p.1 = k) then l.map (fun p => if p.1 = k then (k, v) else p)
  else l ++ [(k, v)]

/-- `startsWithChars pat l` : `pat` is a leading subsequence of `l`. -/
def startsWithChars : List Char → List Char → Bool
  | [], _ => true
  | _ :: _, [] => false
  | p :: ps, c :: cs => p = c && startsWithChars ps cs

/-- `hasSubChars pat l` : `pat` occurs as a contiguous substring of `l`. -/
def hasSubChars (pat : List Char) : List Char → Bool
  | [] => startsWithChars pat []
  | c :: cs => startsWithChars pat (c :: cs) || hasSubChars pat cs

/-- `containsSub pat s` : JS `s.includes(pat)`. -/
def containsSub (pat s : String) : Bool := hasSubChars pat.data s.data

/-- JS `s.startsWith(pre)` (list-based, so that terms reduce in the kernel). -/
def strStartsWith (s pre : String) : Bool := startsWithChars pre.data s.data

/-- JS `s.substring(n)` / `String.drop` (list-based). -/
def strDrop (s : String) (n : Nat) : String := String.mk (s.data.drop n)

def splitOnCharAux (c : Char) : List Char → List Char → List (List Char)
  | acc, [] => [acc.reverse]
  | acc, x :: xs =>
    if x = c then acc.reverse :: splitOnCharAux c [] xs
    else splitOnCharAux c (x :: acc) xs

/-- JS `s.split(c)` for a single-character separator (list-based). -/
def splitOnChar (c : Char) (s : String) : List String :=
  (splitOnCharAux c [] s.data).map String.mk

/-- ASCII lowercase letter. -/
def isAsciiLower (c : Char) : Bool := 97 ≤ c.toNat && c.toNat ≤ 122

/-- ASCII uppercase letter. -/
def isAsciiUpper (c : Char) : Bool := 65 ≤ c.toNat && c.toNat ≤ 90

/-- ASCII digit. -/
def isAsciiDigit (c : Char) : Bool := 48 ≤ c.toNat && c.toNat ≤ 57

/-- ASCII letter. -/
def isAsciiAlpha (c : Char) : Bool := isAsciiUpper c || isAsciiLower c

/-- Control characters removed by `sanitizeString`: `[\x00-\x1F\x7F-\x9F]`. -/
def isCtlChar (c : Char) : Bool :=
  c.toNat < 32 || (127 ≤ c.toNat && c.toNat ≤ 159)

/-- Characters removed by `sanitizeString`'s injection pass: `[;&<>"'`]`. -/
def isDangerChar (c : Char) : Bool :=
  c = ';' || c = '&' || c = '<' || c = '>' ||
  c = Char.ofNat 34 || c = Char.ofNat 39 || c = Char.ofNat 96

/-- The third pass of `sanitizeString`: JS `replace(/\.\.\//g, '')`, the global,
leftmost, non-overlapping removal of every `../` occurrence, in one pass. -/
def rmDDSList : List Char → List Char
  | '.' :: '.' :: '/' :: rest => rmDDSList rest
  | c :: rest => c :: rmDDSList rest
  | [] => []

/-- `sanitizeString` from `src/utils/sanitize.ts`: empty in, empty out; then
strip control characters, strip dangerous characters, then one global pass
removing `../` occurrences. -/
def sanitizeString (input : String) : String :=
  if input = "" then ""
  else
    String.mk (rmDDSList ((input.data.filter (fun c => !isCtlChar c)).filter
      (fun c => !isDangerChar c)))

/-- Uppercase hex digit. -/
def hexDigit (n : Nat) : Char :=
  if n < 10 then Char.ofNat (48 + n) else Char.ofNat (55 + n)

/-- `%HH` for one byte. -/
def percentByte (b : Nat) : List Char :=
  ['%', hexDigit (b / 16 % 16), hexDigit (b % 16)]

/-- UTF-8 bytes of a character (standard encoding). -/
def utf8Bytes (c : Char) : List Nat :=
  let n := c.toNat
  if n < 128 then [n]
  else if n < 2048 then [192 + n / 64, 128 + n % 64]
  else if n < 65536 then [224 + n / 4096, 128 + n / 64 % 64, 128 + n % 64]
  else [240 + n / 262144, 128 + n / 4096 % 64, 128 + n / 64 % 64, 128 + n % 64]

/-- Characters kept verbatim by JS `encodeURIComponent`. -/
def isUriUnreserved (c : Char) : Bool :=
  isAsciiAlpha c || isAsciiDigit c || c = '-' || c = '_' || c = '.' || c = '!' ||
  c = '~' || c = '*' || c = Char.ofNat 39 || c = '(' || c = ')'

/-- JS `encodeURIComponent`. -/
def encodeURIComponent (s : String) : String :=
  String.mk (s.data.flatMap
    (fun c => if isUriUnreserved c then [c] else (utf8Bytes c).flatMap percentByte))

/-- `sanitizeQueryParam` from `src/utils/sanitize.ts`. Its callers in `buildUrl`
always pass `String(value)` or `JSON.stringify(value)`, so only the string
branch (`encodeURIComponent(sanitizeString(value))`) is reachable and modelled. -/
def sanitizeQueryParam (s : String) : String :=
  encodeURIComponent (sanitizeString s)

/-- Characters kept verbatim by `application/x-www-form-urlencoded`
serialization (what `URLSearchParams.toString` emits). -/
def isFormSafe (c : Char) : Bool :=
  isAsciiAlpha c || isAsciiDigit c || c = '*' || c = '-' || c = '.' || c = '_'

/-- One character of form-urlencoded output. -/
def formEncodeChar (c : Char) : List Char :=
  if isFormSafe c then [c]
  else if c = ' ' then ['+']
  else (utf8Bytes c).flatMap percentByte

/-- Form-urlencoded serialization of one string. -/
def formEncodeChars (s : String) : List Char := s.data.flatMap formEncodeChar

/-!
## The WHATWG URL model

The platform `new URL(input, base)` is modelled at the fidelity the source
needs: an absolute http(s) URL is `scheme://host/path` (the modelled grammar
carries no userinfo, query or fragment on the base; the query is tracked
separately as the decoded `searchParams` pairs that the source appends).
Dot-segment normalization and the empty-host parse failure of the platform
parser (e.g. `new URL('http://')` throws) are modelled; `%2e`-encoded dot
segments and backslash separators are outside the modelled grammar.
-/

structure URLRec where
  scheme : String
  host : String
  segs : List String
  query : List (String × String)
deriving DecidableEq, Repr

/-- Scheme characters accepted by the modelled parser. -/
def isSchemeChar (c : Char) : Bool := isAsciiLower c

/-- Host (and port) characters accepted by the modelled parser. -/
def isHostChar (c : Char) : Bool :=
  isAsciiLower c || isAsciiDigit c || c = '.' || c = '-' || c = ':'

/-- WHATWG dot-segment normalization of a path, as a segment-list transform.
`acc` holds already-emitted segments in reverse. A final `.` or `..` leaves a
trailing slash (an empty final segment). -/
def pathNormAux : List String → List String → List String
  | acc, [] => acc.reverse
  | acc, [".."] => (acc.drop 1).reverse ++ [""]
  | acc, ".." :: rest => pathNormAux (acc.drop 1) rest
  | acc, ["."] => acc.reverse ++ [""]
  | acc, "." :: rest => pathNormAux acc rest
  | acc, s :: rest => pathNormAux (s :: acc) rest

def pathNorm (l : List String) : List String := pathNormAux [] l

/-- Split an absolute path string (leading `/`) into segments. -/
def splitAbsPath (s : String) : List String :=
  if s = "" then [] else splitOnChar '/' (strDrop s 1)

/-- Authority + path assembly shared by the parser and the
protocol-relative branch of resolution: an empty or invalid host fails, as
the platform `URL` constructor does. -/
def mkAuthority (scheme : String) (hostCs : List Char) (pathStr : String) :
    Option URLRec :=
  if hostCs.isEmpty then none
  else if !hostCs.all isHostChar then none
  else some { scheme := scheme, host := String.mk hostCs,
              segs := pathNorm (splitAbsPath pathStr), query := [] }

/-- Absolute-URL assembly: scheme must be nonempty and drawn from the scheme
character class, the path must be free of query/fragment/space/control
characters (outside the modelled grammar), then the authority rules apply. -/
def mkUrl (schemeCs hostCs : List Char) (pathStr : String) : Option URLRec :=
  if schemeCs.isEmpty then none
  else if !schemeCs.all isSchemeChar then none
  else if pathStr.data.any
      (fun c => c = '?' || c = '#' || c = ' ' || isCtlChar c) then none
  else mkAuthority (String.mk schemeCs) hostCs pathStr

/-- Parse an absolute URL of the modelled grammar; `none` models the platform
`URL` constructor throwing. An empty host fails, as on the platform. -/
def urlParse (s : String) : Option URLRec :=
  match s.data.span isSchemeChar with
  | (schemeCs, ':' :: '/' :: '/' :: rest2) =>
    mkUrl schemeCs (rest2.span (fun c => c ≠ '/')).1
      (String.mk (rest2.span (fun c => c ≠ '/')).2)
  | _ => none

/-- Does the string begin with `scheme:`? -/
def hasSchemePrefix (s : String) : Bool :=
  let p := s.data.span isSchemeChar
  !p.1.isEmpty && (match p.2 with | ':' :: _ => true | _ => false)

/-- `new URL(ref, base)` for an already-parsed base. Relative path references
always succeed; scheme-prefixed references re-parse absolutely and can fail
(the platform throws on e.g. `http://` with an empty host). -/
def urlResolve (ref : String) (base : URLRec) : Option URLRec :=
  if ref = "" then some base
  else if hasSchemePrefix ref then urlParse ref
  else if strStartsWith ref "//" then
    let q := (strDrop ref 2).data.span (fun c => c ≠ '/')
    mkAuthority base.scheme q.1 (String.mk q.2)
  else if strStartsWith ref "/" then
    some { base with segs := pathNorm (splitOnChar '/' (strDrop ref 1)), query := [] }
  else
    some { base with
           segs := pathNorm (base.segs.dropLast ++ splitOnChar '/' ref)
           query := [] }

/-- Path percent-encoding: characters the platform serializer leaves verbatim
in a path. `%` passes through (the platform does not re-encode it). -/
def isPathSafe (c : Char) : Bool :=
  32 < c.toNat && c.toNat < 127 &&
  !(c = Char.ofNat 34 || c = '#' || c = '<' || c = '>' || c = '?' ||
    c = Char.ofNat 96 || c = Char.ofNat 123 || c = Char.ofNat 125)

def pathEncodeChar (c : Char) : List Char :=
  if isPathSafe c then [c] else (utf8Bytes c).flatMap percentByte

/-- Serialized path: `/seg/seg/...`; the empty segment list renders as `/`. -/
def renderPathAux : List String → List Char
  | [] => []
  | s :: rest => '/' :: (s.data.flatMap pathEncodeChar) ++ renderPathAux rest

def renderPath (segs : List String) : String :=
  if segs.isEmpty then "/" else String.mk (renderPathAux segs)

/-- Serialized query pairs, form-urlencoded and `&`-joined. -/
def renderQueryList : List (String × String) → List Char
  | [] => []
  | p :: rest =>
    formEncodeChars p.1 ++ '=' :: formEncodeChars p.2 ++
      (match rest with
       | [] => []
       | _ => '&' :: renderQueryList rest)

def renderQuery (q : List (String × String)) : String :=
  match q with
  | [] => ""
  | _ => String.mk ('?' :: renderQueryList q)

/-- `new URL(u).origin + new URL(u).pathname`: serialization without query. -/
def renderOriginPath (u : URLRec) : String :=
  u.scheme ++ "://" ++ u.host ++ renderPath u.segs

/-- `url.toString()`. -/
def renderUrl (u : URLRec) : String :=
  renderOriginPath u ++ renderQuery u.query

/-- `sanitizeUrl` from `src/utils/sanitize.ts`, as the parsed record: `new URL`
must succeed and the protocol must be http(s), else the empty string (here
`none`) is returned. -/
def sanitizeUrlParsed (url : String) : Option URLRec :=
  match urlParse url with
  | some u => if u.scheme = "http" || u.scheme = "https" then some u else none
  | none => none

/-!
## Error taxonomy (`src/core/errors.ts`)

Error objects are modelled as one record `DataBinderErrorRec` carrying the
class name, message, `code`, optional HTTP `status` and the context fields the
constructors populate. Each source constructor becomes a `*Mk` function.
-/

structure ErrContext where
  url : Option String := none
  method : Option String := none
  authType : Option String := none
  resourceType : Option String := none
  resourceId : Option String := none
  timeoutMs : Option Nat := none
  propertyName : Option String := none
  expectedType : Option String := none
deriving DecidableEq, Repr

structure DataBinderErrorRec where
  name : String
  message : String
  code : String
  status : Option Nat
  context : ErrContext
deriving DecidableEq, Repr

/-- The five taxonomy kinds plus a catch-all for anything else. -/
inductive FetchErrorKind
  | network | authentication | notFound | timeout | invalidConfig | other
deriving DecidableEq, Repr

/-- Kind of an error record, read off its `code`. -/
def errorKind (e : DataBinderErrorRec) : FetchErrorKind :=
  if e.code = "TIMEOUT_ERROR" then .timeout
  else if e.code = "NETWORK_ERROR" then .network
  else if e.code = "AUTHENTICATION_ERROR" then .authentication
  else if e.code = "NOT_FOUND_ERROR" then .notFound
  else if e.code = "INVALID_CONFIG_ERROR" then .invalidConfig
  else .other

/-- `new AuthenticationError(message, authType, status, context)`. -/
def AuthenticationErrorMk (message : String) (authType : Option String)
    (status : Option Nat) (ctx : ErrContext) : DataBinderErrorRec :=
  { name := "AuthenticationError", message, code := "AUTHENTICATION_ERROR",
    status, context := { ctx with authType } }

/-- `new NotFoundError(message, resourceType, resourceId, status, context)`;
its status defaults to 404 through `status || 404`. -/
def NotFoundErrorMk (message : String) (resourceType resourceId : Option String)
    (status : Option Nat) (ctx : ErrContext) : DataBinderErrorRec :=
  { name := "NotFoundError", message, code := "NOT_FOUND_ERROR",
    status := some (jsOrNat status 404),
    context := { ctx with resourceType, resourceId } }

/-- `new NetworkError(message, url, method, status, context)`. The source
computes `new URL(url).origin + new URL(url).pathname` to strip the query from
the context URL; call sites hand it the serialized resolved URL, so the model
takes the structured URL and renders origin + path directly. -/
def NetworkErrorMk (message : String) (url : Option URLRec)
    (method : Option String) (status : Option Nat) (ctx : ErrContext) :
    DataBinderErrorRec :=
  { name := "NetworkError", message, code := "NETWORK_ERROR", status,
    context := { ctx with url := url.map renderOriginPath, method } }

/-- `new TimeoutError(message, url, method, timeoutMs, context)`: a
`NetworkError` with status 408, code `TIMEOUT_ERROR` and the duration. -/
def TimeoutErrorMk (message : String) (url : Option URLRec)
    (method : Option String) (timeoutMs : Option Nat) : DataBinderErrorRec :=
  let base := NetworkErrorMk message url method (some 408)
    { timeoutMs := timeoutMs }
  { base with name := "TimeoutError", code := "TIMEOUT_ERROR" }

/-- `new InvalidConfigError(message, propertyName, expectedType, ...)`:
code `INVALID_CONFIG_ERROR`, no status. -/
def InvalidConfigErrorMk (message : String)
    (propertyName expectedType : Option String) : DataBinderErrorRec :=
  { name := "InvalidConfigError", message, code := "INVALID_CONFIG_ERROR",
    status := none, context := { propertyName, expectedType } }

/-- The shape `isRetryableError` and friends inspect on an arbitrary thrown
value: instance flags for the `instanceof` checks, `code`, `message` and the
three places a status can live. -/
structure JsError where
  isNetworkInstance : Bool
  isTimeoutInstance : Bool
  code : Option String
  message : String
  status : Option Int
  statusCode : Option Int
  responseStatus : Option Int
deriving DecidableEq, Repr

/-- `isHttpError(error, statusCode)` from `src/core/errors.ts`. -/
def isHttpError (e : JsError) (statusCode : Int) : Bool :=
  e.status = some statusCode || e.statusCode = some statusCode ||
  e.responseStatus = some statusCode

/-- `isNetworkError(error)` from `src/core/errors.ts`. -/
def isNetworkError (e : JsError) : Bool :=
  e.isNetworkInstance ||
  e.code = some "ECONNRESET" || e.code = some "ECONNREFUSED" ||
  e.code = some "ENOTFOUND" ||
  containsSub "Failed to fetch" e.message ||
  containsSub "Network request failed" e.message

/-- `isServerError(error)`: `error.status || error.statusCode ||
error.response?.status` then `status >= 500 && status < 600`
(`undefined` compares false). -/
def isServerError (e : JsError) : Bool :=
  match jsOrInt e.status (jsOrInt e.statusCode e.responseStatus) with
  | some s => 500 ≤ s && s < 600
  | none => false

/-- `isRetryableError(error)` from `src/core/errors.ts`. -/
def isRetryableError (e : JsError) : Bool :=
  isNetworkError e || isServerError e || isHttpError e 429 ||
  e.isTimeoutInstance

/-!
## Retry engine (`src/utils/retryUtils.ts`)

`RetryOptions` holds the plain data fields; the source also carries
`retryCondition` and an abort `signal` in the options object — they are passed
as separate arguments here (functions cannot live in a `DecidableEq` record).
The operation is a family `Nat → Except E V` giving the outcome of each
invocation, and the abort signal a predicate `Nat → Bool` sampled after the
failure of each attempt, exactly where the source reads `signal?.aborted`.
-/

structure RetryOptions where
  maxRetries : Option Nat := none
  baseDelay : Option ℚ := none
  exponential : Option Bool := none
  maxDelay : Option ℚ := none
  jitter : Option ℚ := none
  timeout : Option Nat := none
deriving DecidableEq, Repr

/-- JS `a ?? keep-present-key` for the spread `{...DEFAULT_RETRY_OPTIONS, ...options}`
on one field: a present key wins, an absent key falls back to the default. -/
def optOr {α : Type} (a b : Option α) : Option α :=
  match a with
  | some x => some x
  | none => b

/-- `{...DEFAULT_RETRY_OPTIONS, ...options}` from `withRetry`. -/
def mergedRetryOptions (options : RetryOptions) : RetryOptions :=
  { maxRetries := optOr options.maxRetries (some 3),
    baseDelay := optOr options.baseDelay (some 300),
    exponential := optOr options.exponential (some true),
    maxDelay := optOr options.maxDelay (some 10000),
    jitter := optOr options.jitter (some (3/10)),
    timeout := optOr options.timeout (some 30000) }

/-- `const maxRetries = mergedOptions.maxRetries || 0`. -/
def effectiveMaxRetries (options : RetryOptions) : Nat :=
  jsOrNat (mergedRetryOptions options).maxRetries 0

/-- `calculateDelay(attempt, options)` from `src/utils/retryUtils.ts`, with
`Math.random()` as the explicit argument `rand ∈ [0,1)`:
`delay = exponential ? min(baseDelay * 2^attempt, maxDelay) : baseDelay`, and
when `jitter > 0` the result is `floor(delay * (1 - jitter + rand*jitter*2))`. -/
def calculateDelay (attempt : Nat) (options : RetryOptions) (rand : ℚ) : ℚ :=
  let baseDelay := (options.baseDelay).getD 300
  let exponential := (options.exponential).getD true
  let maxDelay := (options.maxDelay).getD 10000
  let jitter := (options.jitter).getD (3/10)
  let delay := if exponential then min (baseDelay * 2 ^ attempt) maxDelay
               else baseDelay
  if 0 < jitter then ((Int.floor (delay * (1 - jitter + rand * jitter * 2)) : Int) : ℚ)
  else delay

/-- Result of one `withRetry` run: the value returned or the error finally
re-thrown, the number of invocations of the operation, and the number of
backoff sleeps performed. -/
structure RetryRun (E V : Type) where
  result : Except E V
  invocations : Nat
  sleeps : Nat
deriving Repr

/-- The attempt loop of `withRetry`: `fuel` is the number of retries still
allowed (`maxRetries - attempt`). On failure the abort signal is consulted,
then the retry predicate; a retry sleeps once and continues with the next
attempt index, otherwise the last error is re-thrown. -/
def withRetryAux {E V : Type} (fn : Nat → Except E V) (cond : E → Nat → Bool)
    (ab : Nat → Bool) : Nat → Nat → RetryRun E V
  | 0, attempt =>
    match fn attempt with
    | Except.ok v => ⟨Except.ok v, 1, 0⟩
    | Except.error e => ⟨Except.error e, 1, 0⟩
  | fuel + 1, attempt =>
    match fn attempt with
    | Except.ok v => ⟨Except.ok v, 1, 0⟩
    | Except.error e =>
      if ab attempt then ⟨Except.error e, 1, 0⟩
      else if cond e attempt then
        let r := withRetryAux fn cond ab fuel (attempt + 1)
        ⟨r.result, r.invocations + 1, r.sleeps + 1⟩
      else ⟨Except.error e, 1, 0⟩

/-- The caller-supplied predicate if present, else `isRetryableError`. -/
def effectiveCondition (retryCondition : Option (JsError → Nat → Bool)) :
    JsError → Nat → Bool :=
  match retryCondition with
  | some c => c
  | none => fun e _ => isRetryableError e

/-- `withRetry(fn, options)` from `src/utils/retryUtils.ts`, over operations
failing with `JsError`-shaped values. `retryCondition` and the abort signal
are the function-valued option fields, passed separately. -/
def withRetry {V : Type} (fn : Nat → Except JsError V) (options : RetryOptions)
    (retryCondition : Option (JsError → Nat → Bool)) (signalAborted : Nat → Bool) :
    RetryRun JsError V :=
  withRetryAux fn (effectiveCondition retryCondition) signalAborted
    (effectiveMaxRetries options) 0

/-!
## JS values

A small dynamic-value type for JSON-ish data flowing through options,
responses and the batch iterator.
-/

inductive JsVal
  | null
  | jsUndefined
  | bool (b : Bool)
  | num (n : Int)
  | str (s : String)
  | arr (l : List JsVal)
  | obj (kvs : List (String × JsVal))
deriving Repr

/-- JS truthiness. The empty array and empty object are truthy. -/
def jsTruthy : JsVal → Bool
  | .null => false
  | .jsUndefined => false
  | .bool b => b
  | .num n => n ≠ 0
  | .str s => s ≠ ""
  | .arr _ => true
  | .obj _ => true

/-- `typeof v === 'object'` (true for `null`, arrays and objects). -/
def jsTypeofObject : JsVal → Bool
  | .null => true
  | .arr _ => true
  | .obj _ => true
  | _ => false

def lookupJs (l : List (String × JsVal)) (k : String) : Option JsVal :=
  match l with
  | [] => none
  | p :: rest => if p.1 = k then some p.2 else lookupJs rest k

/-- JS property access `v.k` (`undefined` when absent or not an object). -/
def jsGet (v : JsVal) (k : String) : JsVal :=
  match v with
  | .obj kvs => (lookupJs kvs k).getD .jsUndefined
  | _ => .jsUndefined

/-- JS `a || b` on values. -/
def jsValOr (a b : JsVal) : JsVal := if jsTruthy a then a else b

/-- JS `.length`: defined for arrays and strings, `undefined` otherwise. -/
def jsLength : JsVal → Option Nat
  | .arr l => some l.length
  | .str s => some s.length
  | _ => none

def jsonEscapeChar (c : Char) : List Char :=
  if c = Char.ofNat 34 then [Char.ofNat 92, Char.ofNat 34]
  else if c = Char.ofNat 92 then [Char.ofNat 92, Char.ofNat 92]
  else if c.toNat < 32 then
    [Char.ofNat 92, 'u', '0', '0', hexDigit (c.toNat / 16), hexDigit (c.toNat % 16)]
  else [c]

def jsonQuote (s : String) : String :=
  String.mk (Char.ofNat 34 :: s.data.flatMap jsonEscapeChar ++ [Char.ofNat 34])

mutual

/-- `JSON.stringify`. A nested `undefined` serializes as in JS (dropped in
objects, `null` in arrays); a top-level `undefined` is unreachable from the
modelled call sites. -/
def jsonStringify : JsVal → String
  | .null => "null"
  | .jsUndefined => "null"
  | .bool b => if b then "true" else "false"
  | .num n => toString n
  | .str s => jsonQuote s
  | .arr l => "[" ++ String.intercalate "," (jsonStringifyList l) ++ "]"
  | .obj kvs => "\x7b" ++ String.intercalate "," (jsonStringifyPairs kvs) ++ "\x7d"

def jsonStringifyList : List JsVal → List String
  | [] => []
  | v :: rest => jsonStringify v :: jsonStringifyList rest

def jsonStringifyPairs : List (String × JsVal) → List String
  | [] => []
  | (_, JsVal.jsUndefined) :: rest => jsonStringifyPairs rest
  | (k, v) :: rest => (jsonQuote k ++ ":" ++ jsonStringify v) :: jsonStringifyPairs rest

end

mutual

/-- JS `String(value)` (`Array.prototype.toString` comma-joins elements). -/
def jsValToString : JsVal → String
  | .null => "null"
  | .jsUndefined => "undefined"
  | .bool b => if b then "true" else "false"
  | .num n => toString n
  | .str s => s
  | .arr l => jsValListToString l
  | .obj _ => "[object Object]"

def jsValListToString : List JsVal → String
  | [] => ""
  | [v] => jsValToString v
  | v :: rest => jsValToString v ++ "," ++ jsValListToString rest

end

/-!
## REST API datasource (`src/datasources/implementations/RestApiDatasource.ts`)

Configuration and per-call option records mirror `RestApiConfig` and
`RestApiMethodOptions`.
-/

inductive AuthType | cookie | bearer | basic | custom
deriving DecidableEq, Repr

def authTypeString : AuthType → String
  | .cookie => "cookie"
  | .bearer => "bearer"
  | .basic => "basic"
  | .custom => "custom"

structure AuthConfig where
  type : AuthType
  cookies : List (String × String) := []
  token : Option String := none
  username : Option String := none
  password : Option String := none
  headerName : Option String := none
  headerValue : Option String := none
deriving DecidableEq, Repr

structure AuthOverride where
  type : Option AuthType := none
  token : Option String := none
  username : Option String := none
  password : Option String := none
  headerValue : Option String := none
  cookies : List (String × String) := []
deriving DecidableEq, Repr

structure RestApiConfig where
  baseUrl : String
  headers : List (String × String) := []
  timeout : Option Nat := none
  endpoints : List (String × String) := []
  defaultEndpoint : Option String := none
  auth : Option AuthConfig := none
deriving DecidableEq, Repr

structure PaginationOptions where
  enabled : Bool := false
  startPage : Option Nat := none
  pageSize : Option Nat := none
deriving DecidableEq, Repr

structure SortOption where
  field : String
  direction : String
deriving DecidableEq, Repr

structure QueryOptions where
  filters : Option (List (String × JsVal)) := none
  sort : Option (List SortOption) := none
deriving Repr

structure ResponseOptions where
  fullResponse : Option Bool := none
  throwHttpErrors : Option Bool := none
deriving DecidableEq, Repr

inductive ResponseFormat | full | batch | iterator | stream
deriving DecidableEq, Repr

structure FetchRetryOptions where
  maxRetries : Option Nat := none
  baseDelay : Option ℚ := none
  exponential : Option Bool := none
deriving DecidableEq, Repr

structure RestApiMethodOptions where
  endpoint : Option String := none
  pagination : Option PaginationOptions := none
  query : Option QueryOptions := none
  headers : List (String × String) := []
  cookies : List (String × String) := []
  authOverride : Option AuthOverride := none
  responseOptions : Option ResponseOptions := none
  responseFormat : Option ResponseFormat := none
  retryOptions : Option FetchRetryOptions := none
  method : Option String := none
  body : Option JsVal := none
  batchSize : Option Nat := none
deriving Repr

def b64Char (n : Nat) : Char :=
  if n < 26 then Char.ofNat (65 + n)
  else if n < 52 then Char.ofNat (97 + (n - 26))
  else if n < 62 then Char.ofNat (48 + (n - 52))
  else if n = 62 then '+' else '/'

def base64Encode : List Nat → List Char
  | [] => []
  | [a] => [b64Char (a / 4), b64Char (a % 4 * 16), '=', '=']
  | [a, b] => [b64Char (a / 4), b64Char (a % 4 * 16 + b / 16), b64Char (b % 16 * 4), '=']
  | a :: b :: c :: rest =>
    b64Char (a / 4) :: b64Char (a % 4 * 16 + b / 16) ::
    b64Char (b % 16 * 4 + c / 64) :: b64Char (c % 64) :: base64Encode rest

/-- JS `btoa`, total on the Latin-1 projection of the string (the platform
function throws beyond Latin-1; the claims only exercise ASCII credentials). -/
def btoa (s : String) : String :=
  String.mk (base64Encode (s.data.map (fun c => c.toNat % 256)))

/-- The same-kind / no-override merge: the second `switch (auth?.type)` of
`applyAuthentication`. Override fields win through `||`; with no `auth` the
switch matches nothing. -/
def applyAuthMerge (headers : List (String × String)) (auth : Option AuthConfig)
    (override : Option AuthOverride) : List (String × String) :=
  match auth with
  | none => headers
  | some a =>
    match a.type with
    | AuthType.bearer =>
      let token := jsOrS (override.bind (fun o => o.token)) a.token
      if jsTruthyS token then
        setAssoc headers "Authorization" ("Bearer " ++ token.getD "")
      else headers
    | AuthType.basic =>
      let username := jsOrS (override.bind (fun o => o.username)) a.username
      let password := jsOrS (override.bind (fun o => o.password)) a.password
      if jsTruthyS username && jsTruthyS password then
        setAssoc headers "Authorization"
          ("Basic " ++ btoa (username.getD "" ++ ":" ++ password.getD ""))
      else headers
    | AuthType.custom =>
      if jsTruthyS a.headerName then
        let headerValue := jsOrS (override.bind (fun o => o.headerValue)) a.headerValue
        if jsTruthyS headerValue then
          setAssoc headers (a.headerName.getD "") (headerValue.getD "")
        else headers
      else headers
    | AuthType.cookie => headers

/-- `applyAuthentication(headers, auth, override)` from the REST datasource.
When the override carries a type different from the base's, the first switch
runs: bearer and basic come entirely from the override, while the custom case
reads the header *name* from the base config (`auth?.headerName`) and only the
value from the override; a cookie override sets nothing here. Otherwise the
field-by-field merge runs. -/
def applyAuthentication (headers : List (String × String))
    (auth : Option AuthConfig) (override : Option AuthOverride) :
    List (String × String) :=
  if auth.isNone && override.isNone then headers
  else
    match override.bind (fun o => o.type) with
    | some t =>
      if some t ≠ auth.map (fun a => a.type) then
        match t with
        | AuthType.bearer =>
          if jsTruthyS (override.bind (fun o => o.token)) then
            setAssoc headers "Authorization"
              ("Bearer " ++ (override.bind (fun o => o.token)).getD "")
          else headers
        | AuthType.basic =>
          if jsTruthyS (override.bind (fun o => o.username)) &&
             jsTruthyS (override.bind (fun o => o.password)) then
            setAssoc headers "Authorization"
              ("Basic " ++ btoa ((override.bind (fun o => o.username)).getD "" ++ ":" ++
                (override.bind (fun o => o.password)).getD ""))
          else headers
        | AuthType.custom =>
          if jsTruthyS (auth.bind (fun a => a.headerName)) &&
             jsTruthyS (override.bind (fun o => o.headerValue)) then
            setAssoc headers ((auth.bind (fun a => a.headerName)).getD "")
              ((override.bind (fun o => o.headerValue)).getD "")
          else headers
        | AuthType.cookie => headers
      else applyAuthMerge headers auth override
    | none => applyAuthMerge headers auth override

/-- Endpoint resolution at the top of `buildUrl`: sanitize the endpoint, look
it up (without its leading slash) in the named-endpoint table, keep a truthy
mapped value (sanitized) or fall back to the sanitized literal endpoint. -/
def customEndpointOf (config : RestApiConfig) (endpoint : String) : String :=
  let sanitizedEndpoint := sanitizeString endpoint
  let endpointKey :=
    if strStartsWith sanitizedEndpoint "/" then strDrop sanitizedEndpoint 1
    else sanitizedEndpoint
  match lookupStr config.endpoints endpointKey with
  | some v => if v ≠ "" then sanitizeString v else sanitizedEndpoint
  | none => sanitizedEndpoint

/-- `page` / `pageSize` query parameters (`pagination?.enabled`;
`startPage || 1`; `pageSize` only when truthy). -/
def paginationParams (pagination : Option PaginationOptions) :
    List (String × String) :=
  match pagination with
  | some p =>
    if p.enabled then
      ("page", toString (jsOrNat p.startPage 1)) ::
        (match p.pageSize with
         | some ps => if ps ≠ 0 then [("pageSize", toString ps)] else []
         | none => [])
    else []
  | none => []

/-- A filter value before encoding: objects (incl. `null` and arrays) are
JSON-encoded, anything else goes through `String(value)`. -/
def filterValueString (v : JsVal) : String :=
  if jsTypeofObject v then jsonStringify v else jsValToString v

/-- Filter query parameters: sanitized key, `sanitizeQueryParam`-encoded value. -/
def filterParams (query : Option QueryOptions) : List (String × String) :=
  match query with
  | some q =>
    match q.filters with
    | some fs =>
      fs.map (fun p => (sanitizeString p.1, sanitizeQueryParam (filterValueString p.2)))
    | none => []
  | none => []

/-- The `sort` query parameter: `field:direction` pairs comma-joined, with the
field sanitized and the direction normalized to `asc`/`desc`. -/
def sortParams (query : Option QueryOptions) : List (String × String) :=
  match query with
  | some q =>
    match q.sort with
    | some l =>
      if 0 < l.length then
        [("sort", String.intercalate "," (l.map (fun s =>
          sanitizeString s.field ++ ":" ++
            (if s.direction = "desc" then "desc" else "asc"))))]
      else []
    | none => []
  | none => []

/-- How `buildUrl` can fail: a thrown `InvalidConfigError`, or a raw error
thrown by the platform `URL` constructor (a `TypeError`, not a taxonomy
error). -/
inductive BuildError
  | config (e : DataBinderErrorRec)
  | urlThrow (message : String)
deriving DecidableEq, Repr

/-- `buildUrl(config, endpoint, pagination, query)` from the REST datasource
(the variant with sanitization): reject an absent base URL, resolve and
sanitize the endpoint, validate the base through `sanitizeUrl` (unparseable or
non-http(s) bases raise `InvalidConfigError`), construct the URL (the platform
constructor can still throw on pathological references), then append
pagination, filter and sort parameters. -/
def buildUrl (config : RestApiConfig) (endpoint : String)
    (pagination : Option PaginationOptions) (query : Option QueryOptions) :
    Except BuildError URLRec :=
  if config.baseUrl = "" then
    Except.error (BuildError.config (InvalidConfigErrorMk
      "REST API baseUrl is missing or undefined" (some "baseUrl") (some "string")))
  else
    match sanitizeUrlParsed config.baseUrl with
    | none =>
      Except.error (BuildError.config (InvalidConfigErrorMk
        "REST API baseUrl is invalid" (some "baseUrl") (some "url")))
    | some base =>
      match urlResolve (customEndpointOf config endpoint) base with
      | none =>
        Except.error (BuildError.urlThrow
          ("Invalid URL: " ++ customEndpointOf config endpoint))
      | some u =>
        let appended := paginationParams pagination ++ filterParams query ++ sortParams query
        Except.ok { u with query := u.query ++ appended }

/-- `response.ok`. -/
def responseOk (status : Nat) : Bool := 200 ≤ status && status < 300

/-- The HTTP-status-to-taxonomy mapping of `fetchData` (run on a non-2xx
response with error-throwing enabled): 401/403 build `AuthenticationError`,
404 builds `NotFoundError` — both put the full serialized URL in their
`context` —, and ≥500 / everything else build `NetworkError`, whose
constructor strips the query from the context URL. -/
def mapHttpStatusError (status : Nat) (statusText : String) (u : URLRec)
    (method : String) (config : RestApiConfig) (endpoint : String) :
    DataBinderErrorRec :=
  if status = 401 then
    AuthenticationErrorMk ("Authentication failed: " ++ statusText)
      ((config.auth).map (fun a => authTypeString a.type)) (some status)
      { url := some (renderUrl u), method := some method }
  else if status = 403 then
    AuthenticationErrorMk ("Access forbidden: " ++ statusText)
      ((config.auth).map (fun a => authTypeString a.type)) (some status)
      { url := some (renderUrl u), method := some method }
  else if status = 404 then
    NotFoundErrorMk ("Resource not found: " ++ statusText)
      (some "endpoint") (some endpoint) (some status)
      { url := some (renderUrl u), method := some method }
  else if 500 ≤ status then
    NetworkErrorMk ("Server error: " ++ statusText) (some u) (some method)
      (some status) {}
  else
    NetworkErrorMk ("HTTP error " ++ toString status ++ ": " ++ statusText)
      (some u) (some method) (some status) {}

/-- Outcome of the platform `fetch` (plus body JSON-parsing) on one attempt:
a response with a status and an optional parsed body (`none` = the body was
not parseable JSON), an abort (`AbortError` from the timeout signal), or a
rejection with an arbitrary raw error. -/
inductive FetchOutcome
  | response (status : Nat) (statusText : String) (body : Option JsVal)
  | abortError
  | failure (message : String)
deriving Repr

/-- What one attempt of `fetchData` can throw to `withRetry`: a taxonomy error,
or a raw (unclassified) error that escaped the wrapping logic. -/
inductive EscapedError
  | taxonomy (e : DataBinderErrorRec)
  | raw (message : String)
deriving DecidableEq, Repr

/-- The rendered response of a successful attempt, per response format. -/
inductive FetchResult
  | streamResp (status : Nat)
  | fullResp (status : Nat) (statusText : String) (data : Option JsVal) (ok : Bool)
  | batchResp (items : JsVal) (totalItems : JsVal) (currentPage : Nat)
      (hasNextPage : Bool) (status : Nat)
  | defaultResp (data : JsVal) (status : Nat)
deriving Repr

def optNatString (o : Option Nat) : String :=
  match o with
  | some n => toString n
  | none => "undefined"

/-- `pagination?.pageSize || options.batchSize` (0 falsy). -/
def effPageSize (options : RestApiMethodOptions) : Option Nat :=
  match (options.pagination).bind (fun p => p.pageSize) with
  | some n => if n = 0 then options.batchSize else some n
  | none => options.batchSize

/-- One attempt of `fetchData` (the body handed to `withRetry`), as a function
of the `fetch` outcome. The try/catch structure of the source is mirrored:
errors thrown inside the attempt reach the catch block, which re-throws the
five custom error classes unchanged and wraps anything else into a
`TimeoutError`/`NetworkError` — but building that wrapper calls
`buildUrl(config, endpoint, ...)` again, so a raw URL-constructor error is
re-thrown raw instead of being wrapped. -/
def fetchDataAttempt (config : RestApiConfig) (endpoint : String)
    (options : RestApiMethodOptions) (env : FetchOutcome) :
    Except EscapedError FetchResult :=
  let methodStr := jsOrStr options.method "GET"
  match buildUrl config (jsOrStr options.endpoint endpoint) options.pagination
      options.query with
  | Except.error (BuildError.config e) => Except.error (EscapedError.taxonomy e)
  | Except.error (BuildError.urlThrow m) => Except.error (EscapedError.raw m)
  | Except.ok u =>
    match env with
    | FetchOutcome.abortError =>
      match buildUrl config endpoint options.pagination options.query with
      | Except.ok u2 =>
        Except.error (EscapedError.taxonomy (TimeoutErrorMk
          ("Request timed out after " ++ optNatString config.timeout ++ "ms")
          (some u2) (some methodStr) config.timeout))
      | Except.error (BuildError.config e2) => Except.error (EscapedError.taxonomy e2)
      | Except.error (BuildError.urlThrow m2) => Except.error (EscapedError.raw m2)
    | FetchOutcome.failure msg =>
      match buildUrl config endpoint options.pagination options.query with
      | Except.ok u2 =>
        Except.error (EscapedError.taxonomy (NetworkErrorMk
          ("Request failed: " ++ msg) (some u2) (some methodStr) none {}))
      | Except.error (BuildError.config e2) => Except.error (EscapedError.taxonomy e2)
      | Except.error (BuildError.urlThrow m2) => Except.error (EscapedError.raw m2)
    | FetchOutcome.response status statusText body =>
      if !responseOk status &&
         !((options.responseOptions).bind (fun r => r.throwHttpErrors) = some false) then
        Except.error (EscapedError.taxonomy
          (mapHttpStatusError status statusText u methodStr config endpoint))
      else if options.responseFormat = some ResponseFormat.stream then
        Except.ok (FetchResult.streamResp status)
      else if ((options.responseOptions).bind (fun r => r.fullResponse)).getD false then
        Except.ok (FetchResult.fullResp status statusText body (responseOk status))
      else
        let data := body.getD (JsVal.obj [])
        if options.responseFormat = some ResponseFormat.batch then
          let itemsVal :=
            match data with
            | JsVal.arr _ => data
            | _ => jsValOr (jsGet data "items")
                     (jsValOr (jsGet data "data") (JsVal.arr [data]))
          Except.ok (FetchResult.batchResp itemsVal
            (jsValOr (jsGet data "totalItems")
              (match jsLength itemsVal with
               | some n => JsVal.num n
               | none => JsVal.jsUndefined))
            (jsOrNat ((options.pagination).bind (fun p => p.startPage)) 1)
            (jsLength itemsVal = effPageSize options) status)
        else Except.ok (FetchResult.defaultResp data status)

/-- The retry options object `fetchData` builds and hands to `withRetry`,
after the merge with the defaults inside `withRetry`: the caller's
`maxRetries`/`baseDelay` fall back to 2 / 300 through `||` (so explicit zeros
fall back too), and the `timeout` key is *present* in the literal (its value
is `config.timeout`, possibly `undefined`), so the spread overrides the 30s
default with it. -/
def fetchDataMergedRetryOptions (options : RestApiMethodOptions)
    (config : RestApiConfig) : RetryOptions :=
  { maxRetries := some (jsOrNat ((options.retryOptions).bind (fun r => r.maxRetries)) 2),
    baseDelay := some (jsOrQ ((options.retryOptions).bind (fun r => r.baseDelay)) 300),
    exponential := some true,
    maxDelay := some 10000,
    jitter := some (3/10),
    timeout := config.timeout }

/-- Conversion of an escaped attempt error to the shape the retry classifiers
inspect: the class instance flags, `code`, `message` and `status`. -/
def escapedToJsError : EscapedError → JsError
  | EscapedError.taxonomy e =>
    { isNetworkInstance := e.name = "NetworkError" || e.name = "TimeoutError",
      isTimeoutInstance := e.name = "TimeoutError",
      code := some e.code, message := e.message,
      status := e.status.map (fun n => (n : Int)),
      statusCode := none, responseStatus := none }
  | EscapedError.raw m =>
    { isNetworkInstance := false, isTimeoutInstance := false, code := none,
      message := m, status := none, statusCode := none, responseStatus := none }

/-- `fetchData(config, endpoint, options)`: the attempt wrapped in `withRetry`
with the options-derived policy, no custom retry predicate and no abort
signal. `envs i` is the `fetch` outcome of attempt `i`. -/
def fetchData (config : RestApiConfig) (endpoint : String)
    (options : RestApiMethodOptions) (envs : Nat → FetchOutcome) :
    RetryRun EscapedError FetchResult :=
  withRetryAux (fun i => fetchDataAttempt config endpoint options (envs i))
    (fun e _ => isRetryableError (escapedToJsError e)) (fun _ => false)
    (jsOrNat (fetchDataMergedRetryOptions options config).maxRetries 0) 0

/-!
## Batch iterator (`src/core/DataBinder.ts`, `createResultIterator`)

The per-id fetch is abstracted as its outcome: the awaited response value or
the message of the error it threw. The generator is the induced list of
yielded `BatchResponse` values, in order.
-/

structure BatchMetadata where
  currentPage : Nat
  totalPages : Nat
  hasNextPage : Bool
  totalItems : Option Nat := none
  batchIndex : Option Nat := none
  batchSize : Option Nat := none
  error : Option String := none
deriving DecidableEq, Repr

structure BatchResponse where
  data : List JsVal
  metadata : BatchMetadata
deriving Repr

/-- `Math.ceil(a / b)` on naturals. -/
def ceilDiv (a b : Nat) : Nat := (a + b - 1) / b

/-- The slicing loop of `createResultIterator`: `Math.ceil(totalItems /
batchSize)` batches, each the slice `[batchIndex*batchSize, min(start +
batchSize, totalItems))`, with `currentPage = batchIndex + 1`, `totalPages =
totalBatches`, `hasNextPage = batchIndex < totalBatches - 1` and the extra
`batchIndex`/`batchSize` metadata. -/
def createBatches (allData : List JsVal) (batchSize : Nat) : List BatchResponse :=
  let totalItems := allData.length
  let totalBatches := ceilDiv totalItems batchSize
  (List.range totalBatches).map (fun batchIndex =>
    { data := (allData.drop (batchIndex * batchSize)).take batchSize,
      metadata := { currentPage := batchIndex + 1, totalPages := totalBatches,
                    hasNextPage := decide (batchIndex < totalBatches - 1),
                    totalItems := some totalItems,
                    batchIndex := some batchIndex,
                    batchSize := some batchSize } })

/-- JS object property assignment for dynamic values. -/
def setAssocJs (l : List (String × JsVal)) (k : String) (v : JsVal) :
    List (String × JsVal) :=
  if l.any (fun p => p.1 = k) then l.map (fun p => if p.1 = k then (k, v) else p)
  else l ++ [(k, v)]

/-- `applyMapping(data, mapping)` from `DataBinder`: non-objects pass through;
object keys are renamed through `mapping[key] || key` (JS `for..in` conversion
of array items is outside the modelled inputs — arrays pass through here). -/
def applyMapping (mapping : List (String × String)) (v : JsVal) : JsVal :=
  match v with
  | JsVal.obj kvs =>
    JsVal.obj (kvs.foldl (fun acc kv =>
      setAssocJs acc (jsOrStr (lookupStr mapping kv.1) kv.1) kv.2) [])
  | _ => v

/-- `allData = response.data || response; if (!Array.isArray(allData))
allData = [allData]`. -/
def coerceAllData (resp : JsVal) : List JsVal :=
  let allData := jsValOr (jsGet resp "data") resp
  match allData with
  | JsVal.arr l => l
  | v => [v]

/-- One datasource id's worth of the iterator: outcome of its fetch plus its
configured property mapping. -/
structure IterSource where
  outcome : Except String JsVal
  mapping : Option (List (String × String)) := none

/-- The per-id body of `createResultIterator`: on success, coerce to a list,
apply the mapping when configured, slice into batches; on a thrown error,
yield exactly one empty error batch carrying the message. -/
def processSource (src : IterSource) (batchSize : Nat) : List BatchResponse :=
  match src.outcome with
  | Except.error msg =>
    [{ data := [],
       metadata := { currentPage := 1, totalPages := 1, hasNextPage := false,
                     error := some msg } }]
  | Except.ok resp =>
    let allData := coerceAllData resp
    let mapped :=
      match src.mapping with
      | some m => allData.map (applyMapping m)
      | none => allData
    createBatches mapped batchSize

/-- `createResultIterator(datasourceIds, batchSize, parentOptions)`: the
sequence of batches yielded for the given ids, in id order. -/
def createResultIterator (sources : List IterSource) (batchSize : Nat) :
    List BatchResponse :=
  sources.flatMap (fun s => processSource s batchSize)

/-!
## General lemmas about the retry loop
-/

theorem withRetryAux_invocations_le {E V : Type} (fn : Nat → Except E V)
    (cond : E → Nat → Bool) (ab : Nat → Bool) :
    ∀ (fuel attempt : Nat),
      (withRetryAux fn cond ab fuel attempt).invocations ≤ fuel + 1 := by
  intro fuel
  induction fuel with
  | zero =>
    intro attempt
    unfold withRetryAux
    cases fn attempt <;> simp
  | succ n ih =>
    intro attempt
    unfold withRetryAux
    cases fn attempt with
    | ok v => simp
    | error e =>
      by_cases hab : ab attempt
      · simp [hab]
      · by_cases hc : cond e attempt
        · simpa [hab, hc] using Nat.add_le_add_right (ih (attempt + 1)) 1
        · simp [hab, hc]

theorem withRetryAux_allFail {E V : Type} (fn : Nat → Except E V)
    (cond : E → Nat → Bool) (ab : Nat → Bool)
    (hfail : ∀ i, ∃ e, fn i = Except.error e ∧ cond e i = true)
    (hab : ∀ i, ab i = false) :
    ∀ (fuel attempt : Nat),
      (withRetryAux fn cond ab fuel attempt).invocations = fuel + 1 ∧
      (withRetryAux fn cond ab fuel attempt).sleeps = fuel ∧
      ∃ e, fn (attempt + fuel) = Except.error e ∧
        (withRetryAux fn cond ab fuel attempt).result = Except.error e := by
  intro fuel
  induction fuel with
  | zero =>
    intro attempt
    obtain ⟨e, he, _⟩ := hfail attempt
    unfold withRetryAux
    rw [he]
    exact ⟨rfl, rfl, e, he, rfl⟩
  | succ n ih =>
    intro attempt
    obtain ⟨e, he, hc⟩ := hfail attempt
    obtain ⟨ih1, ih2, e2, he2, hr2⟩ := ih (attempt + 1)
    unfold withRetryAux
    rw [he, hab attempt]
    simp only [Bool.false_eq_true, if_false, hc, if_true]
    refine ⟨by rw [ih1], by rw [ih2], e2, ?_, by rw [hr2]⟩
    have : attempt + 1 + n = attempt + (n + 1) := by omega
    rwa [this] at he2

theorem effectiveMaxRetries_of_some (options : RetryOptions) (N : Nat)
    (h : options.maxRetries = some N) : effectiveMaxRetries options = N := by
  cases N <;> simp [effectiveMaxRetries, mergedRetryOptions, optOr, jsOrNat, h]

/-- A concrete non-retryable error: what a `NotFoundError` (404) looks like to
the classifiers. -/
def err404 : JsError :=
  { isNetworkInstance := false, isTimeoutInstance := false, code := none,
    message := "Resource not found: Not Found", status := some 404,
    statusCode := none, responseStatus := none }

/-- A concrete retryable error: a server error (503). -/
def err503 : JsError :=
  { isNetworkInstance := false, isTimeoutInstance := false, code := none,
    message := "Server error: Service Unavailable", status := some 503,
    statusCode := none, responseStatus := none }

/-- C1, counterexample. The claim asserts that *every* operation failing on
every invocation is invoked exactly `maxRetries + 1` times. The operation that
always fails with a non-retryable error (a 404, as in the source's own
`isRetryableError`) is invoked exactly once under `maxRetries = 2`, not three
times: `withRetry` re-raises immediately when the failure is not retryable. -/
theorem claim_C1_counterexample :
    (withRetry (fun _ => (Except.error err404 : Except JsError Unit))
      { maxRetries := some 2 } none (fun _ => false)).invocations = 1 ∧
    (withRetry (fun _ => (Except.error err404 : Except JsError Unit))
      { maxRetries := some 2 } none (fun _ => false)).invocations ≠ 2 + 1 := by
  constructor
  · rfl
  · decide

/-- C1 (amended): for a policy with `maxRetries = N`, a zero-argument
operation that fails *retryably* (under the effective retry predicate) on
every invocation, and no abort, `withRetry` invokes the operation exactly
`N + 1` times with `N` backoff sleeps and then raises the last error; no run
ever makes more than `N + 1` invocations; and `maxRetries = 0` always means a
single invocation with no sleep. -/
theorem claim_C1_amended {V : Type} (fn : Nat → Except JsError V)
    (options : RetryOptions) (rc : Option (JsError → Nat → Bool))
    (ab : Nat → Bool) (N : Nat) (hmax : options.maxRetries = some N)
    (hfail : ∀ i, ∃ e, fn i = Except.error e ∧ effectiveCondition rc e i = true)
    (hab : ∀ i, ab i = false) :
    (withRetry fn options rc ab).invocations = N + 1 ∧
    (withRetry fn options rc ab).sleeps = N ∧
    (∃ e, fn N = Except.error e ∧
      (withRetry fn options rc ab).result = Except.error e) ∧
    (∀ (fn2 : Nat → Except JsError V) (rc2 : Option (JsError → Nat → Bool))
       (ab2 : Nat → Bool),
      (withRetry fn2 options rc2 ab2).invocations ≤ N + 1) ∧
    (N = 0 → (withRetry fn options rc ab).invocations = 1 ∧
      (withRetry fn options rc ab).sleeps = 0) := by
  have heff := effectiveMaxRetries_of_some options N hmax
  have hall := withRetryAux_allFail fn (effectiveCondition rc) ab hfail hab N 0
  rw [Nat.zero_add] at hall
  unfold withRetry
  rw [heff]
  obtain ⟨h1, h2, e, he, hr⟩ := hall
  refine ⟨h1, h2, ⟨e, he, hr⟩, ?_, fun h0 => ?_⟩
  · intro fn2 rc2 ab2
    exact withRetryAux_invocations_le fn2 (effectiveCondition rc2) ab2 N 0
  · subst h0
    exact ⟨h1, h2⟩

/-- C1, witness for the amended theorem at a concrete input: policy
`maxRetries = 2`, operation always failing with a 503 (retryable by default):
exactly 3 invocations. -/
theorem claim_C1_witness :
    (withRetry (fun _ => (Except.error err503 : Except JsError Unit))
      { maxRetries := some 2 } none (fun _ => false)).invocations = 2 + 1 :=
  (claim_C1_amended (fun _ => (Except.error err503 : Except JsError Unit))
    { maxRetries := some 2 } none (fun _ => false) 2 rfl
    (fun _ => ⟨err503, rfl, rfl⟩) (fun _ => rfl)).1

/-- Options of the C2 counterexample: `baseDelay = 8000`, `maxDelay = 10000`,
exponential backoff, jitter `0.3` (the source default). -/
def cexC2opts : RetryOptions :=
  { baseDelay := some 8000, exponential := some true, maxDelay := some 10000,
    jitter := some (3/10) }

/-- C2, counterexample. The claim asserts the computed delay never exceeds
`maxDelay`. With `baseDelay = 8000`, `maxDelay = 10000`, `jitter = 0.3`,
attempt 0 and random draw `0.99`, the delay is
`floor(min(8000, 10000) * (1 - 0.3 + 0.99*0.3*2)) = 10352 > 10000`: jitter is
applied *after* the cap, so the result can exceed `maxDelay`. -/
theorem claim_C2_counterexample :
    (0:ℚ) ≤ 99/100 ∧ (99/100 : ℚ) < 1 ∧
    cexC2opts.maxDelay = some 10000 ∧
    calculateDelay 0 cexC2opts (99/100) = 10352 ∧
    ¬ calculateDelay 0 cexC2opts (99/100) ≤ 10000 := by
  refine ⟨by norm_num, by norm_num, rfl, ?_, ?_⟩ <;>
    norm_num [calculateDelay, cexC2opts, Int.floor_eq_iff]

/-- C2 (amended): with exponential backoff, base delay `base ≥ 0`, cap
`maxD ≥ 0`, jitter `j ∈ (0,1]` and random draw `rand ∈ [0,1)`, the computed
delay lies in `[floor(capped*(1-j)), capped*(1+j)]` where
`capped = min(base*2^attempt, maxD)` — the cap is applied *before* jitter, so
the delay can exceed `maxD` by up to the factor `1+j`; with `j = 0` the delay
is exactly `capped`. -/
theorem claim_C2_amended (a : Nat) (options : RetryOptions) (rand base maxD j : ℚ)
    (hb : options.baseDelay = some base) (he : options.exponential = some true)
    (hm : options.maxDelay = some maxD) (hj : options.jitter = some j)
    (hb0 : 0 ≤ base) (hm0 : 0 ≤ maxD) (hr0 : 0 ≤ rand) (hr1 : rand < 1)
    (_hj1 : j ≤ 1) :
    (0 < j →
      ((Int.floor (min (base * 2 ^ a) maxD * (1 - j)) : ℚ) ≤
        calculateDelay a options rand ∧
       calculateDelay a options rand ≤ min (base * 2 ^ a) maxD * (1 + j))) ∧
    (j ≤ 0 → calculateDelay a options rand = min (base * 2 ^ a) maxD) := by
  have h2a : (0:ℚ) ≤ 2 ^ a := by positivity
  have hC0 : (0:ℚ) ≤ min (base * 2 ^ a) maxD := le_min (mul_nonneg hb0 h2a) hm0
  constructor
  · intro hjpos
    have hfac0 : (0:ℚ) ≤ rand * j * 2 := by positivity
    have hfac1 : rand * j * 2 ≤ 2 * j := by nlinarith
    have hmono1 : min (base * 2 ^ a) maxD * (1 - j) ≤
        min (base * 2 ^ a) maxD * (1 - j + rand * j * 2) := by nlinarith
    have hmono2 : min (base * 2 ^ a) maxD * (1 - j + rand * j * 2) ≤
        min (base * 2 ^ a) maxD * (1 + j) := by nlinarith
    constructor
    · have hfl := Int.floor_le_floor hmono1
      simp only [calculateDelay, hb, he, hm, hj, Option.getD_some, if_pos hjpos,
        if_true]
      exact_mod_cast hfl
    · simp only [calculateDelay, hb, he, hm, hj, Option.getD_some, if_pos hjpos,
        if_true]
      exact le_trans (Int.floor_le _) hmono2
  · intro hjle
    simp only [calculateDelay, hb, he, hm, hj, Option.getD_some, if_true,
      if_neg (not_lt.mpr hjle)]

/-- C2, witness for the amended theorem: attempt 0, the counterexample options
and random draw `1/2` — the delay `8000` lies within
`[floor(8000*0.7), 8000*1.3] = [5600, 10400]`. -/
theorem claim_C2_witness :
    (Int.floor (min ((8000:ℚ) * 2 ^ 0) 10000 * (1 - 3/10)) : ℚ) ≤
      calculateDelay 0 cexC2opts (1/2) ∧
    calculateDelay 0 cexC2opts (1/2) ≤ min ((8000:ℚ) * 2 ^ 0) 10000 * (1 + 3/10) :=
  (claim_C2_amended 0 cexC2opts (1/2) 8000 10000 (3/10) rfl rfl rfl rfl
    (by norm_num) (by norm_num) (by norm_num) (by norm_num) (by norm_num)).1
    (by norm_num)

/-- `jsOrNat` with a nonzero default is never zero. -/
theorem jsOrNat_ne_zero (v : Option Nat) (d : Nat) (hd : d ≠ 0) :
    jsOrNat v d ≠ 0 := by
  cases v with
  | none => simpa [jsOrNat] using hd
  | some n =>
    by_cases hn : n = 0 <;> simp [jsOrNat, hn, hd]

/-- `m || 0` is `m`. -/
theorem jsOrNat_some_zero_default (m : Nat) : jsOrNat (some m) 0 = m := by
  by_cases h : m = 0 <;> simp [jsOrNat, h]

/-- The retry loop always invokes the operation at least once. -/
theorem withRetryAux_invocations_pos {E V : Type} (fn : Nat → Except E V)
    (cond : E → Nat → Bool) (ab : Nat → Bool) :
    ∀ (fuel attempt : Nat), 1 ≤ (withRetryAux fn cond ab fuel attempt).invocations := by
  intro fuel
  induction fuel with
  | zero =>
    intro attempt
    unfold withRetryAux
    cases fn attempt <;> simp
  | succ n ih =>
    intro attempt
    unfold withRetryAux
    cases fn attempt with
    | ok v => simp
    | error e =>
      by_cases hab : ab attempt
      · simp [hab]
      · by_cases hc : cond e attempt
        · simp [hab, hc]
        · simp [hab, hc]

/-- C10 (implicit): `fetchData` resolves its retry options through `||`, so the
falsy caller values `maxRetries = 0` and `baseDelay = 0` fall back to the
defaults 2 and 300; the effective `maxRetries` handed to the retry loop is
never 0, so a single-attempt fetch cannot be requested through
`retryOptions` — a retryably-failing first attempt is always retried — even
though `withRetry` itself honors an explicit `maxRetries = 0` with exactly one
invocation and no sleep. -/
theorem claim_C10_confirmed :
    (∀ (config : RestApiConfig) (e : Option Bool),
      (fetchDataMergedRetryOptions
        { retryOptions := some { maxRetries := some 0, baseDelay := some 0,
                                 exponential := e } } config).maxRetries = some 2 ∧
      (fetchDataMergedRetryOptions
        { retryOptions := some { maxRetries := some 0, baseDelay := some 0,
                                 exponential := e } } config).baseDelay = some 300) ∧
    (∀ (options : RestApiMethodOptions) (config : RestApiConfig),
      jsOrNat (fetchDataMergedRetryOptions options config).maxRetries 0 ≠ 0) ∧
    (∀ (config : RestApiConfig) (endpoint : String)
       (options : RestApiMethodOptions) (envs : Nat → FetchOutcome)
       (e0 : EscapedError),
      fetchDataAttempt config endpoint options (envs 0) = Except.error e0 →
      isRetryableError (escapedToJsError e0) = true →
      2 ≤ (fetchData config endpoint options envs).invocations) ∧
    (∀ (V : Type) (fn : Nat → Except JsError V)
       (rc : Option (JsError → Nat → Bool)) (ab : Nat → Bool),
      (withRetry fn { maxRetries := some 0 } rc ab).invocations = 1 ∧
      (withRetry fn { maxRetries := some 0 } rc ab).sleeps = 0) := by
  refine ⟨fun config e => ⟨rfl, rfl⟩, ?_, ?_, ?_⟩
  · intro options config
    show jsOrNat (some (jsOrNat ((options.retryOptions).bind (fun r => r.maxRetries)) 2)) 0 ≠ 0
    rw [jsOrNat_some_zero_default]
    exact jsOrNat_ne_zero _ 2 (by omega)
  · intro config endpoint options envs e0 h0 hr
    have h2 : jsOrNat ((options.retryOptions).bind (fun r => r.maxRetries)) 2 ≠ 0 :=
      jsOrNat_ne_zero _ 2 (by omega)
    obtain ⟨k, hk⟩ := Nat.exists_eq_succ_of_ne_zero h2
    have hfuel : jsOrNat (fetchDataMergedRetryOptions options config).maxRetries 0 = k + 1 := by
      show jsOrNat (some (jsOrNat ((options.retryOptions).bind (fun r => r.maxRetries)) 2)) 0 = k + 1
      rw [jsOrNat_some_zero_default, hk]
    unfold fetchData
    rw [hfuel]
    unfold withRetryAux
    rw [h0]
    simp only [Bool.false_eq_true, if_false, hr, if_true]
    have hge := withRetryAux_invocations_pos
      (fun i => fetchDataAttempt config endpoint options (envs i))
      (fun e _ => isRetryableError (escapedToJsError e)) (fun _ => false) k 1
    show 2 ≤ (withRetryAux (fun i => fetchDataAttempt config endpoint options (envs i))
      (fun e _ => isRetryableError (escapedToJsError e)) (fun _ => false) k 1).invocations + 1
    omega
  · intro V fn rc ab
    unfold withRetry
    rw [effectiveMaxRetries_of_some _ 0 rfl]
    unfold withRetryAux
    cases fn 0 <;> exact ⟨rfl, rfl⟩

/-- C10, witness: a fetch requesting `maxRetries = 0` whose first attempt
fails with a 503 performs at least two invocations. -/
theorem claim_C10_witness :
    2 ≤ (fetchData { baseUrl := "https://api.example.com" } "/d"
      { retryOptions := some { maxRetries := some 0 } }
      (fun _ => FetchOutcome.response 503 "Service Unavailable" none)).invocations :=
  (claim_C10_confirmed).2.2.1 { baseUrl := "https://api.example.com" } "/d"
    { retryOptions := some { maxRetries := some 0 } }
    (fun _ => FetchOutcome.response 503 "Service Unavailable" none)
    (EscapedError.taxonomy (mapHttpStatusError 503 "Service Unavailable"
      { scheme := "https", host := "api.example.com", segs := ["d"], query := [] }
      "GET" { baseUrl := "https://api.example.com" } "/d")) rfl rfl

/-- Base auth used by the C5 counterexample: a bearer config that also carries
a `headerName` (all fields of the auth record are independent options in the
source). -/
def c5BaseAuth : AuthConfig :=
  { type := AuthType.bearer, token := some "A", headerName := some "X-Key" }

/-- Call-level override of a *different* kind: custom with a header value. -/
def c5Override : AuthOverride :=
  { type := some AuthType.custom, headerValue := some "V" }

/-- C5, counterexample. The claim asserts that an override of a different auth
kind than the base alone determines the resulting auth headers. For a custom
override the code reads the header *name* from the base config
(`auth?.headerName`): with the base present the header `X-Key: V` is emitted,
with the base absent nothing is — so the result is not determined by the
override alone. -/
theorem claim_C5_counterexample :
    applyAuthentication [] (some c5BaseAuth) (some c5Override) = [("X-Key", "V")] ∧
    applyAuthentication [] none (some c5Override) = [] ∧
    applyAuthentication [] (some c5BaseAuth) (some c5Override) ≠
      applyAuthentication [] none (some c5Override) := by
  refine ⟨rfl, rfl, ?_⟩
  decide

/-- C5 (amended): when the override carries a *different* auth kind than the
base config — for a bearer or basic override the override alone determines the
auth headers (the result equals running with no base config at all); for a
custom override the header *name* comes from the base config's `headerName`
(nothing is emitted when the base has none) and only the value from the
override; when the override is absent or of the same kind, fields merge with
override values taking priority — bearer merges the token (base bearer `A` +
override bearer `B` gives `Authorization: Bearer B`), basic merges username
and password independently, custom takes the header name from the base and
merges the header value, and an absent override leaves each kind applying the
base fields alone; and with both layers unset the headers are untouched. -/
theorem claim_C5_amended :
    (∀ (h : List (String × String)) (auth : Option AuthConfig) (ov : AuthOverride),
      ov.type = some AuthType.bearer →
      auth.map (fun a => a.type) ≠ some AuthType.bearer →
      applyAuthentication h auth (some ov) = applyAuthentication h none (some ov)) ∧
    (∀ (h : List (String × String)) (auth : Option AuthConfig) (ov : AuthOverride),
      ov.type = some AuthType.basic →
      auth.map (fun a => a.type) ≠ some AuthType.basic →
      applyAuthentication h auth (some ov) = applyAuthentication h none (some ov)) ∧
    (∀ (h : List (String × String)) (auth : Option AuthConfig) (ov : AuthOverride),
      ov.type = some AuthType.custom →
      auth.map (fun a => a.type) ≠ some AuthType.custom →
      applyAuthentication h auth (some ov) =
        (if jsTruthyS (auth.bind (fun a => a.headerName)) && jsTruthyS ov.headerValue then
          setAssoc h ((auth.bind (fun a => a.headerName)).getD "")
            (ov.headerValue.getD "")
         else h)) ∧
    (∀ (h : List (String × String)) (a : AuthConfig) (ov : AuthOverride),
      a.type = AuthType.bearer → ov.type = some AuthType.bearer →
      applyAuthentication h (some a) (some ov) =
        (if jsTruthyS (jsOrS ov.token a.token) then
          setAssoc h "Authorization" ("Bearer " ++ (jsOrS ov.token a.token).getD "")
         else h)) ∧
    (applyAuthentication [] (some { type := AuthType.bearer, token := some "A" })
      (some { type := some AuthType.bearer, token := some "B" }) =
      [("Authorization", "Bearer B")]) ∧
    (∀ (h : List (String × String)), applyAuthentication h none none = h) ∧
    (∀ (h : List (String × String)) (a : AuthConfig) (ov : AuthOverride),
      a.type = AuthType.basic → ov.type = some AuthType.basic →
      applyAuthentication h (some a) (some ov) =
        (if jsTruthyS (jsOrS ov.username a.username) &&
            jsTruthyS (jsOrS ov.password a.password) then
          setAssoc h "Authorization"
            ("Basic " ++ btoa ((jsOrS ov.username a.username).getD "" ++ ":" ++
              (jsOrS ov.password a.password).getD ""))
         else h)) ∧
    (∀ (h : List (String × String)) (a : AuthConfig) (ov : AuthOverride),
      a.type = AuthType.custom → ov.type = some AuthType.custom →
      applyAuthentication h (some a) (some ov) =
        (if jsTruthyS a.headerName then
          (if jsTruthyS (jsOrS ov.headerValue a.headerValue) then
            setAssoc h (a.headerName.getD "")
              ((jsOrS ov.headerValue a.headerValue).getD "")
           else h)
         else h)) ∧
    (∀ (h : List (String × String)) (a : AuthConfig),
      a.type = AuthType.bearer →
      applyAuthentication h (some a) none =
        (if jsTruthyS a.token then
          setAssoc h "Authorization" ("Bearer " ++ a.token.getD "")
         else h)) ∧
    (∀ (h : List (String × String)) (a : AuthConfig),
      a.type = AuthType.basic →
      applyAuthentication h (some a) none =
        (if jsTruthyS a.username && jsTruthyS a.password then
          setAssoc h "Authorization"
            ("Basic " ++ btoa (a.username.getD "" ++ ":" ++ a.password.getD ""))
         else h)) ∧
    (∀ (h : List (String × String)) (a : AuthConfig),
      a.type = AuthType.custom →
      applyAuthentication h (some a) none =
        (if jsTruthyS a.headerName then
          (if jsTruthyS a.headerValue then
            setAssoc h (a.headerName.getD "") (a.headerValue.getD "")
           else h)
         else h)) := by
  refine ⟨?_, ?_, ?_, ?_, rfl, fun h => rfl, ?_, ?_, ?_, ?_, ?_⟩
  · intro h auth ov h1 h2
    simp [applyAuthentication, h1, h2]
    intro hc
    exact absurd hc.symm h2
  · intro h auth ov h1 h2
    simp [applyAuthentication, h1, h2]
    intro hc
    exact absurd hc.symm h2
  · intro h auth ov h1 h2
    simp [applyAuthentication, h1, h2]
    intro hc
    exact absurd hc.symm h2
  · intro h a ov ha h1
    have hsame : ¬ (some AuthType.bearer ≠ (some a).map (fun x => x.type)) := by
      simp [ha]
    simp [applyAuthentication, h1, ha, applyAuthMerge, hsame]
  · intro h a ov ha h1
    have hsame : ¬ (some AuthType.basic ≠ (some a).map (fun x => x.type)) := by
      simp [ha]
    simp [applyAuthentication, h1, ha, applyAuthMerge, hsame]
  · intro h a ov ha h1
    have hsame : ¬ (some AuthType.custom ≠ (some a).map (fun x => x.type)) := by
      simp [ha]
    simp [applyAuthentication, h1, ha, applyAuthMerge, hsame]
  · intro h a ha
    simp [applyAuthentication, applyAuthMerge, ha, jsOrS, jsTruthyS]
  · intro h a ha
    simp [applyAuthentication, applyAuthMerge, ha, jsOrS, jsTruthyS]
  · intro h a ha
    simp [applyAuthentication, applyAuthMerge, ha, jsOrS, jsTruthyS]

/-- C5, witness for the amended theorem: base bearer with override basic — the
override alone determines the headers (Scenario D shape). -/
theorem claim_C5_witness :
    applyAuthentication [] (some { type := AuthType.bearer, token := some "A" })
      (some { type := some AuthType.basic, username := some "u",
              password := some "p" }) =
    applyAuthentication [] none
      (some { type := some AuthType.basic, username := some "u",
              password := some "p" }) :=
  claim_C5_amended.2.1 [] (some { type := AuthType.bearer, token := some "A" })
    { type := some AuthType.basic, username := some "u", password := some "p" }
    rfl (by decide)

/-- URL of the C3 counterexample: the resolved request URL with a query
parameter carrying a secret. -/
def c3Url : URLRec :=
  { scheme := "https", host := "api.example.com", segs := ["items"],
    query := [("token", "secret")] }

def c3Config : RestApiConfig := { baseUrl := "https://api.example.com" }

/-- C3, counterexample. The claim asserts every status-mapped error carries
the URL reduced to origin + path (query stripped). The 401 branch builds an
`AuthenticationError` whose context holds the raw serialized URL — query
string included — not the stripped form (only the `NetworkError` constructor
strips; the 401/403/404 branches pass `{ url, method }` directly). -/
theorem claim_C3_counterexample :
    (mapHttpStatusError 401 "Unauthorized" c3Url "GET" c3Config "/items").context.url =
      some "https://api.example.com/items?token=secret" ∧
    renderOriginPath c3Url = "https://api.example.com/items" ∧
    (mapHttpStatusError 401 "Unauthorized" c3Url "GET" c3Config "/items").context.url ≠
      some (renderOriginPath c3Url) := by
  refine ⟨rfl, rfl, ?_⟩
  decide

/-- C3 (amended): for a non-2xx response with error-throwing enabled the kind
mapping is as stated — 401/403 raise Authentication, 404 raises NotFound,
status ≥ 500 and every other non-2xx status raise Network — and every mapped
error carries the resolved URL and verb in its context; but only the
Network-kind errors (≥ 500 and the generic branch) carry the URL reduced to
origin + path: the Authentication and NotFound errors carry the full URL,
query string included. The final clause ties the mapping to the attempt body
of `fetchData`. -/
theorem claim_C3_amended (status : Nat) (statusText : String) (u : URLRec)
    (method : String) (config : RestApiConfig) (endpoint : String)
    (hnon2xx : responseOk status = false) :
    ((status = 401 ∨ status = 403) →
      errorKind (mapHttpStatusError status statusText u method config endpoint) =
        FetchErrorKind.authentication ∧
      (mapHttpStatusError status statusText u method config endpoint).status = some status ∧
      (mapHttpStatusError status statusText u method config endpoint).context.url =
        some (renderUrl u) ∧
      (mapHttpStatusError status statusText u method config endpoint).context.method =
        some method) ∧
    (status = 404 →
      errorKind (mapHttpStatusError status statusText u method config endpoint) =
        FetchErrorKind.notFound ∧
      (mapHttpStatusError status statusText u method config endpoint).status = some 404 ∧
      (mapHttpStatusError status statusText u method config endpoint).context.url =
        some (renderUrl u) ∧
      (mapHttpStatusError status statusText u method config endpoint).context.method =
        some method) ∧
    (500 ≤ status →
      errorKind (mapHttpStatusError status statusText u method config endpoint) =
        FetchErrorKind.network ∧
      (mapHttpStatusError status statusText u method config endpoint).status = some status ∧
      (mapHttpStatusError status statusText u method config endpoint).context.url =
        some (renderOriginPath u) ∧
      (mapHttpStatusError status statusText u method config endpoint).context.method =
        some method) ∧
    (status ≠ 401 → status ≠ 403 → status ≠ 404 → status < 500 →
      errorKind (mapHttpStatusError status statusText u method config endpoint) =
        FetchErrorKind.network ∧
      (mapHttpStatusError status statusText u method config endpoint).status = some status ∧
      (mapHttpStatusError status statusText u method config endpoint).context.url =
        some (renderOriginPath u) ∧
      (mapHttpStatusError status statusText u method config endpoint).context.method =
        some method) ∧
    (∀ (options : RestApiMethodOptions) (body : Option JsVal),
      (options.responseOptions).bind (fun r => r.throwHttpErrors) ≠ some false →
      buildUrl config (jsOrStr options.endpoint endpoint) options.pagination
        options.query = Except.ok u →
      fetchDataAttempt config endpoint options
        (FetchOutcome.response status statusText body) =
      Except.error (EscapedError.taxonomy (mapHttpStatusError status statusText u
        (jsOrStr options.method "GET") config endpoint))) := by
  refine ⟨?_, ?_, ?_, ?_, ?_⟩
  · rintro (h | h) <;> subst h <;>
      exact ⟨rfl, rfl, rfl, rfl⟩
  · intro h
    subst h
    exact ⟨rfl, rfl, rfl, rfl⟩
  · intro h
    have h1 : status ≠ 401 := by omega
    have h2 : status ≠ 403 := by omega
    have h3 : status ≠ 404 := by omega
    refine ⟨?_, ?_, ?_, ?_⟩ <;>
      simp [mapHttpStatusError, errorKind, NetworkErrorMk, h, h1, h2, h3]
  · intro h1 h2 h3 h4
    have h5 : ¬ 500 ≤ status := by omega
    refine ⟨?_, ?_, ?_, ?_⟩ <;>
      simp [mapHttpStatusError, errorKind, NetworkErrorMk, h1, h2, h3, h5]
  · intro options body hthrow hbuild
    unfold fetchDataAttempt
    rw [hbuild]
    dsimp only
    rw [if_pos (by simp [hnon2xx, hthrow])]

/-- C3, witness for the amended theorem: a 401 maps to an Authentication-kind
error that carries the full resolved URL and the verb. -/
theorem claim_C3_witness :
    errorKind (mapHttpStatusError 401 "Unauthorized" c3Url "GET" c3Config "/items") =
      FetchErrorKind.authentication ∧
    (mapHttpStatusError 401 "Unauthorized" c3Url "GET" c3Config "/items").context.url =
      some (renderUrl c3Url) ∧
    (mapHttpStatusError 401 "Unauthorized" c3Url "GET" c3Config "/items").context.method =
      some "GET" :=
  ⟨((claim_C3_amended 401 "Unauthorized" c3Url "GET" c3Config "/items" rfl).1
      (Or.inl rfl)).1,
   ((claim_C3_amended 401 "Unauthorized" c3Url "GET" c3Config "/items" rfl).1
      (Or.inl rfl)).2.2.1,
   ((claim_C3_amended 401 "Unauthorized" c3Url "GET" c3Config "/items" rfl).1
      (Or.inl rfl)).2.2.2⟩

def c4Config : RestApiConfig := { baseUrl := "https://api.example.com" }

/-- C4 (code bug): the endpoint `http://` makes the platform `URL` constructor
throw a raw `TypeError` inside `buildUrl`. The catch block of `fetchData`
tries to wrap the unexpected error into a `NetworkError` — but building that
wrapper calls `buildUrl` again, which throws the same raw error, so the
unclassified error escapes `fetchData` for every fetch outcome, is judged
non-retryable, and reaches the caller raw: no taxonomy error is raised,
contradicting the wrap-everything contract. -/
theorem claim_C4_code_bug (envs : Nat → FetchOutcome) :
    (fetchData c4Config "http://" {} envs).result =
      Except.error (EscapedError.raw "Invalid URL: http://") ∧
    (fetchData c4Config "http://" {} envs).invocations = 1 ∧
    ∀ (d : DataBinderErrorRec),
      (fetchData c4Config "http://" {} envs).result ≠
        Except.error (EscapedError.taxonomy d) := by
  refine ⟨rfl, rfl, ?_⟩
  intro d hcontra
  have h : Except.error (EscapedError.raw "Invalid URL: http://") =
      (Except.error (EscapedError.taxonomy d) : Except EscapedError FetchResult) := by
    rw [← hcontra]
    rfl
  simp at h

/-- URL resolution never fails on a reference that carries no scheme prefix
and is not protocol-relative (plain path references always resolve). -/
theorem urlResolve_isSome (ref : String) (base : URLRec)
    (h1 : hasSchemePrefix ref = false) (h2 : strStartsWith ref "//" = false) :
    (urlResolve ref base).isSome = true := by
  unfold urlResolve
  split_ifs with hempty hscheme hss hsl
  · rfl
  · rw [h1] at hscheme
    cases hscheme
  · rw [h2] at hss
    cases hss
  · rfl
  · rfl

def c6Config : RestApiConfig := { baseUrl := "ftp://files.example.com" }

/-- C6, counterexample. The claim asserts `buildUrl` raises `InvalidConfig`
exactly when the base address is absent or malformed, and returns an absolute
URL in all other cases. The base `ftp://files.example.com` is a parseable
absolute URL — neither absent nor malformed — yet `buildUrl` raises
`InvalidConfig`, because `sanitizeUrl` also rejects every parseable URL whose
scheme is not http or https. -/
theorem claim_C6_counterexample :
    (urlParse "ftp://files.example.com").isSome = true ∧
    buildUrl c6Config "/data" none none =
      Except.error (BuildError.config (InvalidConfigErrorMk
        "REST API baseUrl is invalid" (some "baseUrl") (some "url"))) ∧
    errorKind (InvalidConfigErrorMk "REST API baseUrl is invalid"
      (some "baseUrl") (some "url")) = FetchErrorKind.invalidConfig ∧
    ∀ (u : URLRec), buildUrl c6Config "/data" none none ≠ Except.ok u := by
  refine ⟨rfl, rfl, rfl, ?_⟩
  intro u hcontra
  have h : Except.error (BuildError.config (InvalidConfigErrorMk
      "REST API baseUrl is invalid" (some "baseUrl") (some "url"))) =
      (Except.ok u : Except BuildError URLRec) := by
    rw [← hcontra]
    rfl
  simp at h

/-- C6 (amended): `buildUrl` raises `InvalidConfig` whenever the base address
is absent, or whenever `sanitizeUrl` rejects it (unparseable *or* parseable
with a non-http(s) scheme); for an accepted base it returns an absolute URL
for every endpoint whose sanitized, table-resolved form is a plain reference
(no scheme prefix, not protocol-relative) — a scheme-prefixed endpoint with an
empty host can still make the URL constructor itself fail with a raw error. -/
theorem claim_C6_amended (config : RestApiConfig) (endpoint : String)
    (pagination : Option PaginationOptions) (query : Option QueryOptions) :
    (config.baseUrl = "" →
      buildUrl config endpoint pagination query =
        Except.error (BuildError.config (InvalidConfigErrorMk
          "REST API baseUrl is missing or undefined" (some "baseUrl")
          (some "string")))) ∧
    (config.baseUrl ≠ "" → sanitizeUrlParsed config.baseUrl = none →
      buildUrl config endpoint pagination query =
        Except.error (BuildError.config (InvalidConfigErrorMk
          "REST API baseUrl is invalid" (some "baseUrl") (some "url")))) ∧
    (∀ (base : URLRec), sanitizeUrlParsed config.baseUrl = some base →
      hasSchemePrefix (customEndpointOf config endpoint) = false →
      strStartsWith (customEndpointOf config endpoint) "//" = false →
      ∃ (u : URLRec), buildUrl config endpoint pagination query = Except.ok u) := by
  refine ⟨?_, ?_, ?_⟩
  · intro h
    unfold buildUrl
    rw [if_pos h]
  · intro h hs
    unfold buildUrl
    rw [if_neg h, hs]
  · intro base hsan hsch hss
    have hb : config.baseUrl ≠ "" := by
      intro he
      rw [he] at hsan
      exact Option.noConfusion hsan
    obtain ⟨u0, hu0⟩ := Option.isSome_iff_exists.mp
      (urlResolve_isSome (customEndpointOf config endpoint) base hsch hss)
    unfold buildUrl
    rw [if_neg hb, hsan]
    dsimp only
    rw [hu0]
    exact ⟨_, rfl⟩

/-- C6, witness for the amended theorem at concrete inputs: an absent base
raises the missing-base `InvalidConfig`; the base `not a url` raises the
invalid-base `InvalidConfig`; and a valid https base with the endpoint
`/data` produces a URL. -/
theorem claim_C6_witness :
    buildUrl { baseUrl := "" } "/data" none none =
      Except.error (BuildError.config (InvalidConfigErrorMk
        "REST API baseUrl is missing or undefined" (some "baseUrl")
        (some "string"))) ∧
    buildUrl { baseUrl := "not a url" } "/data" none none =
      Except.error (BuildError.config (InvalidConfigErrorMk
        "REST API baseUrl is invalid" (some "baseUrl") (some "url"))) ∧
    ∃ (u : URLRec),
      buildUrl { baseUrl := "https://api.example.com" } "/data" none none =
        Except.ok u :=
  ⟨(claim_C6_amended { baseUrl := "" } "/data" none none).1 rfl,
   (claim_C6_amended { baseUrl := "not a url" } "/data" none none).2.1
     (by decide) rfl,
   (claim_C6_amended { baseUrl := "https://api.example.com" } "/data" none none).2.2
     { scheme := "https", host := "api.example.com", segs := [], query := [] }
     rfl rfl rfl⟩

theorem ceilDivOfZero (b : Nat) (hb : 1 ≤ b) : ceilDiv 0 b = 0 := by
  unfold ceilDiv
  exact Nat.div_eq_of_lt (by omega)

theorem ceilDiv_succ (L b : Nat) (hb : 1 ≤ b) (hL : 1 ≤ L) :
    ceilDiv L b = ceilDiv (L - b) b + 1 := by
  unfold ceilDiv
  rw [show L + b - 1 = (L - 1) + b from by omega, Nat.add_div_right _ (by omega)]
  by_cases hLb : L ≤ b
  · rw [show L - b = 0 from by omega]
    rw [Nat.div_eq_of_lt (show 0 + b - 1 < b from by omega)]
    rw [Nat.div_eq_of_lt (show L - 1 < b from by omega)]
  · rw [show L - b + b - 1 = (L - 1 - b) + b from by omega,
      Nat.add_div_right _ (by omega)]
    conv_lhs => rw [show L - 1 = (L - 1 - b) + b from by omega,
      Nat.add_div_right _ (by omega)]

theorem chunksFlatten (b : Nat) (hb : 1 ≤ b) :
    ∀ (L : Nat) (items : List JsVal), items.length = L →
      ((List.range (ceilDiv items.length b)).map
        (fun i => (items.drop (i * b)).take b)).flatten = items := by
  intro L
  induction L using Nat.strong_induction_on with
  | _ L ih =>
    intro items hL
    rcases Nat.eq_zero_or_pos L with h0 | hpos
    · subst h0
      rw [List.length_eq_zero.mp hL]
      simp [ceilDivOfZero b hb]
    · have hone : 1 ≤ items.length := by omega
      rw [ceilDiv_succ items.length b hb hone]
      rw [List.range_succ_eq_map, List.map_cons, List.map_map, List.flatten_cons]
      have htail : ((List.range (ceilDiv (items.length - b) b)).map
          ((fun i => (items.drop (i * b)).take b) ∘ Nat.succ)).flatten =
          items.drop b := by
        have hlen : (items.drop b).length = items.length - b := List.length_drop b items
        have hrec := ih (items.length - b) (by omega) (items.drop b) hlen
        rw [hlen] at hrec
        rw [← hrec]
        congr 1
        apply List.map_congr_left
        intro i _
        show (items.drop (Nat.succ i * b)).take b =
          ((items.drop b).drop (i * b)).take b
        rw [List.drop_drop, Nat.succ_mul, Nat.add_comm (i * b) b]
      rw [htail]
      show (items.drop (0 * b)).take b ++ items.drop b = items
      rw [Nat.zero_mul, List.drop_zero, List.take_append_drop]

/-- C8, counterexample. The claim's boundary clause asserts that a batch size
larger than the total item count yields exactly one chunk. An empty fetched
item list (0 items, batch size 1) yields `ceil(0/1) = 0` chunks — the
iterator produces no batch at all, not one. -/
theorem claim_C8_counterexample :
    createResultIterator [{ outcome := Except.ok (JsVal.arr []) }] 1 = [] ∧
    (createResultIterator [{ outcome := Except.ok (JsVal.arr []) }] 1).length ≠ 1 := by
  refine ⟨rfl, ?_⟩
  decide

/-- C8 (amended): for every fetched item list and `batchSize ≥ 1` the iterator
yields exactly `ceil(totalItems / batchSize)` chunks whose concatenation is the
item list (so the data lengths sum to `totalItems`), chunk `i` holding
`min batchSize (totalItems - i*batchSize)` items, with `currentPage = i + 1`,
`totalPages = ceil(totalItems / batchSize)`, `hasNextPage = i < totalPages - 1`
and `totalItems` recorded; a batch size larger than a *nonzero* item count
yields exactly one chunk with `hasNextPage = false`, while an empty item list
yields zero chunks. -/
theorem claim_C8_amended (items : List JsVal) (b : Nat) (hb : 1 ≤ b) :
    (createBatches items b).length = ceilDiv items.length b ∧
    ((createBatches items b).map (fun x => x.data)).flatten = items ∧
    ((createBatches items b).map (fun x => x.data.length)).sum = items.length ∧
    (∀ (i : Nat) (h : i < (createBatches items b).length),
      ((createBatches items b).get ⟨i, h⟩).data.length =
        min b (items.length - i * b) ∧
      ((createBatches items b).get ⟨i, h⟩).metadata.currentPage = i + 1 ∧
      ((createBatches items b).get ⟨i, h⟩).metadata.totalPages =
        ceilDiv items.length b ∧
      ((createBatches items b).get ⟨i, h⟩).metadata.hasNextPage =
        decide (i < ceilDiv items.length b - 1) ∧
      ((createBatches items b).get ⟨i, h⟩).metadata.totalItems =
        some items.length) ∧
    (1 ≤ items.length → items.length < b →
      (createBatches items b).length = 1 ∧
      ∀ (h : 0 < (createBatches items b).length),
        ((createBatches items b).get ⟨0, h⟩).metadata.hasNextPage = false) ∧
    (createResultIterator [{ outcome := Except.ok (JsVal.arr items) }] b =
      createBatches items b) := by
  have hlen : (createBatches items b).length = ceilDiv items.length b := by
    simp [createBatches]
  have hget : ∀ (i : Nat) (h : i < (createBatches items b).length),
      (createBatches items b).get ⟨i, h⟩ =
      { data := (items.drop (i * b)).take b,
        metadata := { currentPage := i + 1, totalPages := ceilDiv items.length b,
                      hasNextPage := decide (i < ceilDiv items.length b - 1),
                      totalItems := some items.length,
                      batchIndex := some i,
                      batchSize := some b } } := by
    intro i h
    simp [createBatches]
  have hflat : ((createBatches items b).map (fun x => x.data)).flatten = items := by
    have : (createBatches items b).map (fun x => x.data) =
        (List.range (ceilDiv items.length b)).map
          (fun i => (items.drop (i * b)).take b) := by
      simp [createBatches]
    rw [this]
    exact chunksFlatten b hb items.length items rfl
  refine ⟨hlen, hflat, ?_, ?_, ?_, ?_⟩
  · have h1 : ((createBatches items b).map (fun x => x.data)).flatten.length
        = items.length := by rw [hflat]
    rw [List.length_flatten] at h1
    rw [List.map_map] at h1
    exact h1
  · intro i h
    rw [hget i h]
    refine ⟨?_, rfl, rfl, rfl, rfl⟩
    simp [List.length_take, List.length_drop]
  · intro h1 h2
    have hone : ceilDiv items.length b = 1 := by
      unfold ceilDiv
      exact Nat.div_eq_of_lt_le (by omega) (by omega)
    refine ⟨by rw [hlen, hone], ?_⟩
    intro h
    rw [hget 0 h, hone]
    simp
  · simp [createResultIterator, processSource, coerceAllData, jsGet, jsValOr,
      jsTruthy]

/-- C8, witness for the amended theorem: 5 items with batch size 2 give
`ceil(5/2) = 3` chunks. -/
theorem claim_C8_witness :
    (createBatches (List.replicate 5 (JsVal.num 1)) 2).length =
      ceilDiv (List.replicate 5 (JsVal.num 1)).length 2 :=
  (claim_C8_amended (List.replicate 5 (JsVal.num 1)) 2 (by omega)).1

/-- C9 (confirmed): when the fetch for one datasource id raises, the iterator
yields exactly one terminal batch for that id — empty data, the error message
in `metadata.error`, `hasNextPage = false` — inserted between the unchanged
outputs of the ids before and after it: a failure on one source never aborts
the sequence for the others. -/
theorem claim_C9_confirmed (pre post : List IterSource) (msg : String)
    (m : Option (List (String × String))) (b : Nat) :
    createResultIterator (pre ++ ({ outcome := Except.error msg, mapping := m } :: post)) b =
      createResultIterator pre b ++
        ({ data := [],
           metadata := { currentPage := 1, totalPages := 1, hasNextPage := false,
                         totalItems := none, batchIndex := none,
                         batchSize := none, error := some msg } } ::
          createResultIterator post b) := by
  unfold createResultIterator
  rw [List.flatMap_append, List.flatMap_cons]
  rfl

/-- C9, scenario-E-shaped instance: one succeeding id with 5 items at batch
size 2 followed by one failing id — three data batches, then exactly one
error batch with empty data. -/
theorem claim_C9_scenario :
    createResultIterator
      [{ outcome := Except.ok (JsVal.arr (List.replicate 5 (JsVal.num 1))) },
       { outcome := Except.error "boom" }] 2 =
      createBatches (List.replicate 5 (JsVal.num 1)) 2 ++
        [{ data := [],
           metadata := { currentPage := 1, totalPages := 1, hasNextPage := false,
                         totalItems := none, batchIndex := none,
                         batchSize := none, error := some "boom" } }] := by
  rfl

/-!
## Control characters never reach the produced URL (claim C7)
-/

theorem isCtlChar_eq_false_of (c : Char) (h1 : 32 ≤ c.toNat) (h2 : c.toNat ≤ 126) :
    isCtlChar c = false := by
  have hx : ¬ (c.toNat < 32) := by omega
  have hy : ¬ (127 ≤ c.toNat) := by omega
  simp [isCtlChar, hx, hy]

theorem hexDigit_not_ctl (n : Nat) (h : n < 16) : isCtlChar (hexDigit n) = false := by
  interval_cases n <;> decide

theorem percentByte_not_ctl (b : Nat) :
    (percentByte b).all (fun c => !isCtlChar c) = true := by
  unfold percentByte
  have h1 := hexDigit_not_ctl (b / 16 % 16) (Nat.mod_lt _ (by omega))
  have h2 := hexDigit_not_ctl (b % 16) (Nat.mod_lt _ (by omega))
  simp [h1, h2]
  decide

theorem all_flatMap_of {α : Type} (p : Char → Bool) (f : α → List Char)
    (hf : ∀ x, (f x).all p = true) (l : List α) : (l.flatMap f).all p = true := by
  induction l with
  | nil => rfl
  | cons c cs ih => simp [List.flatMap_cons, List.all_append, hf c, ih]

theorem pathEncodeChar_not_ctl (c : Char) :
    (pathEncodeChar c).all (fun x => !isCtlChar x) = true := by
  unfold pathEncodeChar
  by_cases h : isPathSafe c = true
  · rw [if_pos h]
    simp only [isPathSafe, Bool.and_eq_true, decide_eq_true_eq] at h
    simp [isCtlChar_eq_false_of c (by omega) (by omega)]
  · rw [if_neg h]
    exact all_flatMap_of _ percentByte percentByte_not_ctl (utf8Bytes c)

theorem formEncodeChar_not_ctl (c : Char) :
    (formEncodeChar c).all (fun x => !isCtlChar x) = true := by
  unfold formEncodeChar
  by_cases h : isFormSafe c = true
  · rw [if_pos h]
    simp only [isFormSafe, isAsciiAlpha, isAsciiUpper, isAsciiLower, isAsciiDigit,
      Bool.or_eq_true, Bool.and_eq_true, decide_eq_true_eq] at h
    have hc : isCtlChar c = false := by
      have hb : 32 ≤ c.toNat ∧ c.toNat ≤ 126 := by
        rcases h with (((((h | h) | h) | h) | h) | h) | h <;>
          first
            | exact ⟨by omega, by omega⟩
            | (subst h; exact ⟨by decide, by decide⟩)
      exact isCtlChar_eq_false_of c hb.1 hb.2
    simp [hc]
  · rw [if_neg h]
    by_cases hsp : c = ' '
    · rw [if_pos hsp]
      decide
    · rw [if_neg hsp]
      exact all_flatMap_of _ percentByte percentByte_not_ctl (utf8Bytes c)

theorem formEncodeChars_not_ctl (s : String) :
    (formEncodeChars s).all (fun x => !isCtlChar x) = true :=
  all_flatMap_of _ formEncodeChar formEncodeChar_not_ctl s.data

theorem renderPathAux_not_ctl (segs : List String) :
    (renderPathAux segs).all (fun c => !isCtlChar c) = true := by
  induction segs with
  | nil => rfl
  | cons s rest ih =>
    unfold renderPathAux
    simp [List.all_append, all_flatMap_of _ pathEncodeChar pathEncodeChar_not_ctl s.data,
      ih]
    decide

theorem renderQueryList_not_ctl (q : List (String × String)) :
    (renderQueryList q).all (fun c => !isCtlChar c) = true := by
  have heq : isCtlChar '=' = false := by decide
  have ham : isCtlChar '&' = false := by decide
  induction q with
  | nil => rfl
  | cons p rest ih =>
    cases rest with
    | nil =>
      simp [renderQueryList, List.all_append, List.all_cons,
        formEncodeChars_not_ctl, heq]
    | cons p2 rest2 =>
      simp only [renderQueryList, List.all_append, List.all_cons,
        Bool.and_eq_true, Bool.not_eq_true'] at ih ⊢
      simp_all [formEncodeChars_not_ctl, heq, ham]

/-- The produced URL string contains no control character. -/
def strNoCtl (s : String) : Bool := s.data.all (fun c => !isCtlChar c)

theorem strNoCtl_append (a b : String) :
    strNoCtl (a ++ b) = (strNoCtl a && strNoCtl b) := by
  simp [strNoCtl, String.data_append, List.all_append]

theorem all_imp {p q : Char → Bool} (h : ∀ c, p c = true → q c = true)
    (l : List Char) (hl : l.all p = true) : l.all q = true := by
  simp only [List.all_eq_true] at hl ⊢
  intro c hc
  exact h c (hl c hc)

theorem isSchemeChar_not_ctl (c : Char) (h : isSchemeChar c = true) :
    (!isCtlChar c) = true := by
  simp only [isSchemeChar, isAsciiLower, Bool.and_eq_true, decide_eq_true_eq] at h
  simp [isCtlChar_eq_false_of c (by omega) (by omega)]

theorem isHostChar_not_ctl (c : Char) (h : isHostChar c = true) :
    (!isCtlChar c) = true := by
  simp only [isHostChar, isAsciiLower, isAsciiDigit, Bool.or_eq_true,
    Bool.and_eq_true, decide_eq_true_eq] at h
  have hb : 32 ≤ c.toNat ∧ c.toNat ≤ 126 := by
    rcases h with (((h | h) | h) | h) | h <;>
      first
        | exact ⟨by omega, by omega⟩
        | (subst h; exact ⟨by decide, by decide⟩)
  simp [isCtlChar_eq_false_of c hb.1 hb.2]

theorem renderPath_noCtl (segs : List String) : strNoCtl (renderPath segs) = true := by
  unfold renderPath
  by_cases h : segs.isEmpty
  · rw [if_pos h]
    decide
  · rw [if_neg h]
    exact renderPathAux_not_ctl segs

theorem renderQuery_noCtl (q : List (String × String)) :
    strNoCtl (renderQuery q) = true := by
  unfold renderQuery
  cases q with
  | nil => rfl
  | cons p rest =>
    show (('?' :: renderQueryList (p :: rest)).all (fun c => !isCtlChar c)) = true
    simp [renderQueryList_not_ctl (p :: rest)]
    decide

/-- Well-formedness the parser guarantees: scheme and host drawn from their
validated character classes. -/
def urlWF (u : URLRec) : Bool :=
  u.scheme.data.all isSchemeChar && u.host.data.all isHostChar

theorem renderUrl_noCtl (u : URLRec) (h : urlWF u = true) :
    strNoCtl (renderUrl u) = true := by
  simp only [urlWF, Bool.and_eq_true] at h
  have h1 : strNoCtl u.scheme = true := all_imp isSchemeChar_not_ctl u.scheme.data h.1
  have h2 : strNoCtl "://" = true := by decide
  have h3 : strNoCtl u.host = true := all_imp isHostChar_not_ctl u.host.data h.2
  unfold renderUrl renderOriginPath
  simp [strNoCtl_append, h1, h2, h3, renderPath_noCtl, renderQuery_noCtl]

theorem allTakeWhileSelf (p : Char → Bool) (l : List Char) :
    (l.takeWhile p).all p = true := by
  induction l with
  | nil => rfl
  | cons c cs ih =>
    unfold List.takeWhile
    by_cases h : p c
    · simp [h, ih]
    · simp [h]

theorem mkAuthority_wf (scheme : String) (hostCs : List Char) (path : String)
    (u : URLRec) (hs : scheme.data.all isSchemeChar = true)
    (h : mkAuthority scheme hostCs path = some u) : urlWF u = true := by
  unfold mkAuthority at h
  split_ifs at h with h1 h2
  have h2b : hostCs.all isHostChar = true := by simpa using h2
  have h3 := Option.some.inj h
  subst h3
  simp [urlWF, hs, h2b]

theorem mkUrl_wf (schemeCs hostCs : List Char) (path : String) (u : URLRec)
    (h : mkUrl schemeCs hostCs path = some u) : urlWF u = true := by
  unfold mkUrl at h
  split_ifs at h with h1 h2 h3
  have h2b : schemeCs.all isSchemeChar = true := by simpa using h2
  exact mkAuthority_wf (String.mk schemeCs) hostCs path u h2b h

theorem urlParse_wf (s : String) (u : URLRec) (h : urlParse s = some u) :
    urlWF u = true := by
  unfold urlParse at h
  split at h
  · exact mkUrl_wf _ _ _ u h
  · exact Option.noConfusion h

theorem urlResolve_wf (ref : String) (base : URLRec) (u : URLRec)
    (hb : urlWF base = true) (h : urlResolve ref base = some u) :
    urlWF u = true := by
  have hbs : base.scheme.data.all isSchemeChar = true := by
    simp only [urlWF, Bool.and_eq_true] at hb
    exact hb.1
  unfold urlResolve at h
  split_ifs at h with h1 h2 h3 h4
  · obtain rfl := Option.some.inj h
    exact hb
  · exact urlParse_wf ref u h
  · exact mkAuthority_wf base.scheme _ _ u hbs h
  · obtain rfl := Option.some.inj h
    simpa [urlWF] using hb
  · obtain rfl := Option.some.inj h
    simpa [urlWF] using hb

theorem sanitizeUrlParsed_wf (s : String) (u : URLRec)
    (h : sanitizeUrlParsed s = some u) : urlWF u = true := by
  unfold sanitizeUrlParsed at h
  split at h
  · rename_i v hv
    split_ifs at h with hp
    obtain rfl := Option.some.inj h
    exact urlParse_wf s v hv
  · exact Option.noConfusion h

theorem buildUrl_wf (config : RestApiConfig) (endpoint : String)
    (pagination : Option PaginationOptions) (query : Option QueryOptions)
    (u : URLRec) (h : buildUrl config endpoint pagination query = Except.ok u) :
    urlWF u = true := by
  unfold buildUrl at h
  split_ifs at h with h1
  split at h
  · exact Except.noConfusion h
  · rename_i base hbase
    split at h
    · exact Except.noConfusion h
    · rename_i v hv
      have h3 : _ = u := Except.ok.inj h
      subst h3
      have hbwf := sanitizeUrlParsed_wf config.baseUrl base hbase
      have hvwf := urlResolve_wf _ base v hbwf hv
      simpa [urlWF] using hvwf

/-- C7 counterexample: the endpoint `x....//` contains the traversal sequence
`../`, and `sanitizeString` (whose `../`-removal is a single pass) maps it to
`x../`, so the URL `buildUrl` produces — `https://a.com/x../` — still contains
`../`: a caller-supplied traversal sequence survives sanitization into the
produced URL, contradicting the claim that traversal sequences present in the
input do not appear there. -/
theorem claim_C7_counterexample :
    containsSub "../" "x....//" = true ∧
    sanitizeString "x....//" = "x../" ∧
    buildUrl { baseUrl := "https://a.com" } "x....//" none none =
      Except.ok (URLRec.mk "https" "a.com" ["x..", ""] []) ∧
    renderUrl (URLRec.mk "https" "a.com" ["x..", ""] []) = "https://a.com/x../" ∧
    containsSub "../" "https://a.com/x../" = true :=
  ⟨rfl, rfl, rfl, rfl, rfl⟩

/-- C7 (amended): every value `buildUrl` embeds into the URL passes through
the sanitization and encoding primitives first, and the control-character half
of the claim does hold: any URL `buildUrl` successfully returns serializes to
a string containing no control character. (The traversal-sequence half is
false: `sanitizeString` removes `../` in a single pass, so inputs such as
`x....//` collapse to `x../` and the sequence reappears in the URL.) -/
theorem claim_C7_amended (config : RestApiConfig) (endpoint : String)
    (pagination : Option PaginationOptions) (query : Option QueryOptions)
    (u : URLRec) (h : buildUrl config endpoint pagination query = Except.ok u) :
    strNoCtl (renderUrl u) = true :=
  renderUrl_noCtl u (buildUrl_wf config endpoint pagination query u h)

/-- Witness for C7 (amended) at a concrete configuration and endpoint. -/
theorem claim_C7_witness :
    strNoCtl (renderUrl (URLRec.mk "https" "a.com" ["items"] [])) = true :=
  claim_C7_amended { baseUrl := "https://a.com" } "items" none none
    (URLRec.mk "https" "a.com" ["items"] []) rfl
